import Mathlib

/-!
Verification model of the Unix-Shell-Clone repository.

The C++ sources (src/commands.cpp, src/shell.cpp) are shallowly embedded:
every command handler `Commands::xyzCommand` becomes a Lean function `xyzCommand`
over an explicit filesystem state `FS`.  POSIX syscalls (stat, mkdir, rmdir,
open, read, write, rename, unlink, chmod, chown, readdir, getcwd, getenv,
getpwnam, ...) are modelled as pure functions on `FS`; environment-determined
failure modes that the handlers branch on (EXDEV on rename, EACCES on unlink,
failing writes, ...) are made explicit as configuration fields of `FS`.
std::regex and localtime/strftime are environment functionality and are passed
in as parameters (a `RegexEngine`, a time formatter).
-/

namespace ShellClone

/-- Subset of POSIX errno values that the shell's handlers branch on. -/
inductive Errno
  | EEXIST | ENOENT | ENOTDIR | ENOTEMPTY | EACCES | EPERM | EXDEV | EBUSY | EISDIR
  deriving DecidableEq

/-- glibc strerror text for the modelled errno values. -/
def strerror : Errno → String
  | .EEXIST => "File exists"
  | .ENOENT => "No such file or directory"
  | .ENOTDIR => "Not a directory"
  | .ENOTEMPTY => "Directory not empty"
  | .EACCES => "Permission denied"
  | .EPERM => "Operation not permitted"
  | .EXDEV => "Invalid cross-device link"
  | .EBUSY => "Device or resource busy"
  | .EISDIR => "Is a directory"

/-- The `CommandResult` struct: status code plus output/error text channels. -/
structure CommandResult where
  status : Nat
  output : String
  error : String
  deriving DecidableEq

/-- A filesystem entry: a regular file with its byte content and permission
    bits, or a directory with its permission bits. -/
inductive Entry
  | file (content : String) (mode : Nat)
  | dir (mode : Nat)
  deriving DecidableEq

/-- Filesystem-plus-environment state.  `entries` maps normalised paths to
    entries; the remaining fields model the parts of the environment the
    handlers observe (ownership metadata, users, `HOME`, the environment
    block, the cwd) and the failure modes the handlers branch on. -/
structure FS where
  entries : List (String × Entry)
  owners : List (String × Nat) := []
  gidsOf : List (String × Nat) := []
  nlinks : List (String × Nat) := []
  mtimes : List (String × Nat) := []
  users : List (String × Nat) := []
  groups : List (String × Nat) := []
  env : List String := []
  home : String := ""
  cwd : String := ""
  getcwdOk : Bool := true
  crossDev : Bool := false
  unlinkBlocked : List String := []
  writeBlocked : List String := []
  writeErr : List String := []
  rmdirBlocked : List String := []
  chownBlocked : List String := []
  opendirBlocked : List String := []
  deriving DecidableEq

/-- Association-list lookup keyed by decidable string equality. -/
def alookup {α : Type} : List (String × α) → String → Option α
  | [], _ => none
  | (k, v) :: rest, key => if k = key then some v else alookup rest key

/-- Replace the value stored at an existing key. -/
def aset {α : Type} (l : List (String × α)) (key : String) (v : α) : List (String × α) :=
  l.map (fun e => if e.1 = key then (key, v) else e)

/-- First character of a C++ std::string as read by `s[0]`: the null
    character for the empty string. -/
def strHead0 (s : String) : Char :=
  match s.data with
  | [] => Char.ofNat 0
  | c :: _ => c

/-- Last character of a C++ std::string as read by `s.back()` (only ever used
    on non-empty strings by the handlers). -/
def strLast (s : String) : Char :=
  (s.data.getLast?).getD (Char.ofNat 0)

/-- Split on '/' (the semantics of `splitOn "/"`), structurally recursive. -/
def splitSegsGo (acc : List Char) : List Char → List String
  | [] => [String.mk acc.reverse]
  | c :: rest =>
    if c = '/' then String.mk acc.reverse :: splitSegsGo [] rest
    else splitSegsGo (c :: acc) rest

/-- All '/'-separated segments of a path. -/
def splitSegs (s : String) : List String := splitSegsGo [] s.data

/-- Join segments with '/' separators. -/
def joinSegs : List String → String
  | [] => ""
  | [a] => a
  | a :: b :: rest => a ++ "/" ++ joinSegs (b :: rest)

/-- `s.startsWith pre`, computed structurally on the character lists. -/
def strStartsWith (s pre : String) : Bool := pre.data.isPrefixOf s.data

/-- `s.drop n`, computed structurally on the character list. -/
def strDrop (s : String) (n : Nat) : String := String.mk (s.data.drop n)

/-- One segment step of POSIX path normalisation ("", "." dropped, ".." pops). -/
def normStep (abs : Bool) (stack : List String) (seg : String) : List String :=
  if seg = "" ∨ seg = "." then stack
  else if seg = ".." then
    match stack with
    | [] => if abs then [] else [".."]
    | top :: rest => if top = ".." then seg :: top :: rest else rest
  else seg :: stack

/-- Normalise a path the way the kernel resolves it: collapse empty and "."
    segments, resolve "..", drop trailing slashes.  The empty string stands
    for the process's current working directory. -/
def normPath (p : String) : String :=
  let abs := strHead0 p = '/'
  let stack := (splitSegs p).foldl (normStep abs) []
  let body := joinSegs stack.reverse
  if abs then "/" ++ body else body

/-- Normalised paths that always resolve to an existing directory: the cwd,
    the root, and chains of ".." above the cwd. -/
def isVirtualDir (n : String) : Bool :=
  n = "" ∨ n = "/" ∨ (splitSegs n).all (· = "..")

/-- Resolve an already-normalised path to its entry.  The virtual directories
    above always exist. -/
def lookupN (fs : FS) (n : String) : Option Entry :=
  if isVirtualDir n then some (.dir 493) else alookup fs.entries n

/-- Resolve a path to its entry. -/
def lookupEntry (fs : FS) (p : String) : Option Entry :=
  lookupN fs (normPath p)

/-- Drop the last path segment of a normalised path (dirname, roughly). -/
def chopLastSeg (n : String) : String :=
  match n.data.reverse.dropWhile (· ≠ '/') with
  | [] => ""
  | _ :: rest => String.mk rest.reverse

/-- Does the parent directory of `p` exist (as a directory)? -/
def parentOk (fs : FS) (p : String) : Bool :=
  match lookupEntry fs (chopLastSeg (normPath p)) with
  | some (.dir _) => true
  | _ => false

/-- stat(2): fails on the empty path, otherwise resolves the entry. -/
def statSys (fs : FS) (p : String) : Option Entry :=
  if p = "" then none else lookupEntry fs p

/-- `stat(p) == 0 && S_ISDIR(st.st_mode)`. -/
def isDirIn (fs : FS) (p : String) : Bool :=
  match statSys fs p with
  | some (.dir _) => true
  | _ => false

/-- Does the directory with normalised path `n` have any child entry? -/
def hasChildIn (fs : FS) (n : String) : Bool :=
  fs.entries.any (fun e => strStartsWith e.1 (n ++ "/"))

/-- mkdir(2): EEXIST if the path already names an entry, ENOENT if its parent
    is missing, otherwise a new directory with mode 0755. -/
def mkdirSys (fs : FS) (p : String) : FS × Option Errno :=
  if p = "" then (fs, some .ENOENT)
  else
    let n := normPath p
    if (lookupN fs n).isSome then (fs, some .EEXIST)
    else if parentOk fs p then ({ fs with entries := (n, .dir 493) :: fs.entries }, none)
    else (fs, some .ENOENT)

/-- rmdir(2): fails on the empty path, virtual directories, files, blocked
    paths and non-empty directories; otherwise removes the directory. -/
def rmdirSys (fs : FS) (p : String) : FS × Option Errno :=
  let n := normPath p
  if p = "" ∨ n = "" then (fs, some .ENOENT)
  else if isVirtualDir n then (fs, some .EBUSY)
  else
    match alookup fs.entries n with
    | none => (fs, some .ENOENT)
    | some (.file _ _) => (fs, some .ENOTDIR)
    | some (.dir _) =>
      if fs.rmdirBlocked.contains n then (fs, some .EACCES)
      else if hasChildIn fs n then (fs, some .ENOTEMPTY)
      else ({ fs with entries := fs.entries.filter (fun e => e.1 ≠ n) }, none)

/-- Outcome of `open(p, O_RDONLY)` followed by the read loop: the path may not
    resolve, may read as a byte string, or may open fine but fail on the first
    read(2) (directories: EISDIR). -/
inductive OpenResult
  | notFound
  | readsAs (content : String)
  | readErr
  deriving DecidableEq

/-- open-for-read followed by the chunked read loop, summarised. -/
def openForRead (fs : FS) (p : String) : OpenResult :=
  if p = "" then .notFound
  else
    match lookupEntry fs p with
    | none => .notFound
    | some (.file c _) => .readsAs c
    | some (.dir _) => .readErr

/-- `open(p, O_WRONLY | O_CREAT | O_TRUNC, 0644)`: truncates an existing file
    keeping its mode, creates a missing file with mode 0644, fails on
    directories, blocked paths, the empty path and missing parents. -/
def openWriteSys (fs : FS) (p : String) : Except Errno FS :=
  if p = "" then .error .ENOENT
  else
    let n := normPath p
    if fs.writeBlocked.contains n then .error .EACCES
    else
      match lookupN fs n with
      | some (.dir _) => .error .EISDIR
      | some (.file _ m) => .ok { fs with entries := aset fs.entries n (.file "" m) }
      | none =>
        if parentOk fs p then .ok { fs with entries := (n, .file "" 420) :: fs.entries }
        else .error .ENOENT

/-- The write loop that copies `c` into the already-opened-and-truncated file
    at `p`; fails for paths configured to produce write errors. -/
def writeContentSys (fs : FS) (p : String) (c : String) : Option FS :=
  let n := normPath p
  if fs.writeErr.contains n then none
  else
    match alookup fs.entries n with
    | some (.file _ m) => some { fs with entries := aset fs.entries n (.file c m) }
    | _ => some fs

/-- unlink(2): fails on blocked paths, missing paths and directories. -/
def unlinkSys (fs : FS) (p : String) : FS × Option Errno :=
  let n := normPath p
  if p = "" then (fs, some .ENOENT)
  else if fs.unlinkBlocked.contains n then (fs, some .EACCES)
  else
    match lookupEntry fs p with
    | none => (fs, some .ENOENT)
    | some (.dir _) => (fs, some .EISDIR)
    | some (.file _ _) =>
      (({ fs with entries := fs.entries.filter (fun e => e.1 ≠ n) }), none)

/-- rename(2): ENOENT for a missing source, EXDEV when source and destination
    live on different filesystems (the `crossDev` configuration), EISDIR when
    the destination is an existing directory, else moves the entry. -/
def renameSys (fs : FS) (src dst : String) : FS × Option Errno :=
  if src = "" ∨ dst = "" then (fs, some .ENOENT)
  else
    let ns := normPath src
    let nd := normPath dst
    match lookupEntry fs src with
    | none => (fs, some .ENOENT)
    | some e =>
      if fs.crossDev then (fs, some .EXDEV)
      else
        match lookupEntry fs dst with
        | some (.dir _) => (fs, some .EISDIR)
        | _ =>
          if parentOk fs dst then
            ({ fs with entries :=
                (nd, e) :: (fs.entries.filter (fun x => x.1 ≠ ns ∧ x.1 ≠ nd)) }, none)
          else (fs, some .ENOENT)

/-- chmod(2): the kernel keeps the low permission bits of the given mode. -/
def chmodSys (fs : FS) (p : String) (mode : Int) : Except Errno FS :=
  if p = "" then .error .ENOENT
  else
    let n := normPath p
    let bits := (mode.emod 4096).toNat
    match alookup fs.entries n with
    | some (.file c _) => .ok { fs with entries := aset fs.entries n (.file c bits) }
    | some (.dir _) => .ok { fs with entries := aset fs.entries n (.dir bits) }
    | none => if isVirtualDir n then .ok fs else .error .ENOENT

/-- chown(2) with gid -1 (group unchanged): records the new owner. -/
def chownSys (fs : FS) (p : String) (uid : Nat) : Except Errno FS :=
  let n := normPath p
  if fs.chownBlocked.contains n then .error .EPERM
  else .ok { fs with owners := (n, uid) :: fs.owners }

/-- readdir(2) listing of the directory at `p`: "." and ".." followed by the
    names of the one-level-deep children, in entry order. -/
def childNames (fs : FS) (p : String) : List String :=
  let n := normPath p
  let pre := if n = "" then "" else if n = "/" then "/" else n ++ "/"
  "." :: ".." :: fs.entries.filterMap (fun e =>
    if strStartsWith e.1 pre then
      let rest := strDrop e.1 pre.length
      if rest ≠ "" ∧ ¬ rest.data.contains '/' then some rest else none
    else none)

/-! ## Helper functions of commands.cpp -/

/-- Mirrors `Commands::stripTrailingNewline`. -/
def stripTrailingNewline (s : String) : String :=
  if s.data.getLast? = some '\n' then String.mk s.data.dropLast else s

/-- The in-line `if (!out.empty() && out.back() == '\n') out.pop_back();` used
    by grep's match-limit early return. -/
def popNl (s : String) : String :=
  if s.data.getLast? = some '\n' then String.mk s.data.dropLast else s

/-- Value of one digit character in the given base, as strtol reads it. -/
def digitVal (base : Nat) (c : Char) : Option Nat :=
  let v :=
    if '0' ≤ c ∧ c ≤ '9' then some (c.toNat - 48)
    else if 'a' ≤ c ∧ c ≤ 'z' then some (c.toNat - 87)
    else if 'A' ≤ c ∧ c ≤ 'Z' then some (c.toNat - 55)
    else none
  match v with
  | some d => if d < base then some d else none
  | none => none

/-- Longest digit run in the given base; `none` when no digit was consumed. -/
def stoiDigits (base : Nat) : List Char → Nat → Bool → Option Nat
  | [], acc, seen => if seen then some acc else none
  | c :: rest, acc, seen =>
    match digitVal base c with
    | some d => stoiDigits base rest (acc * base + d) true
    | none => if seen then some acc else none

/-- Model of `std::stoi(s, nullptr, base)`: skip leading whitespace, optional
    sign, then the longest digit run (trailing junk ignored); `none` models the
    std::invalid_argument throw when no digit is consumed.  Out-of-range
    overflow is not modelled. -/
def stoiModel (base : Nat) (s : String) : Option Int :=
  let cs := s.data.dropWhile (fun c =>
    c = ' ' ∨ c = '\t' ∨ c = '\n' ∨ c = '\r' ∨ c = Char.ofNat 11 ∨ c = Char.ofNat 12)
  match cs with
  | '-' :: rest => (stoiDigits base rest 0 false).map (fun n => -(n : Int))
  | '+' :: rest => (stoiDigits base rest 0 false).map (fun n => (n : Int))
  | _ => (stoiDigits base cs 0 false).map (fun n => (n : Int))

/-- Mirrors `Commands::formatRmdirErrorMsg`; the global errno is passed
    explicitly as the errno the failing rmdir(2) produced. -/
def formatRmdirErrorMsg (e : Errno) (path : String) : String :=
  match e with
  | .ENOTEMPTY | .EEXIST => "rmdir: failed to remove '" ++ path ++ "': directory not empty"
  | .ENOENT => "rmdir: failed to remove '" ++ path ++ "': no such file or directory"
  | .ENOTDIR => "rmdir: failed to remove '" ++ path ++ "': not a directory"
  | .EACCES | .EPERM => "rmdir: failed to remove '" ++ path ++ "': permission denied"
  | _ => "rmdir: failed to remove '" ++ path ++ "': " ++ strerror e

/-- Mirrors `Commands::isFileEmpty`: stat succeeds and st_size is zero
    (a failing stat yields false; directories have non-zero st_size). -/
def isFileEmpty (fs : FS) (filename : String) : Bool :=
  match statSys fs filename with
  | some (.file c _) => c.length = 0
  | some (.dir _) => false
  | none => false

/-! ## Metadata accessors used by the ls long format -/

def ownerOf (fs : FS) (n : String) : Nat := (alookup fs.owners n).getD 0

def gidOf (fs : FS) (n : String) : Nat := (alookup fs.gidsOf n).getD 0

def nlinkOf (fs : FS) (n : String) : Nat := (alookup fs.nlinks n).getD 1

def mtimeOf (fs : FS) (n : String) : Nat := (alookup fs.mtimes n).getD 0

/-- getpwuid: resolve a uid back to a user name. -/
def userNameOf (fs : FS) (uid : Nat) : Option String :=
  (fs.users.find? (fun u => u.2 == uid)).map (·.1)

/-- getgrgid: resolve a gid back to a group name. -/
def groupNameOf (fs : FS) (gid : Nat) : Option String :=
  (fs.groups.find? (fun g => g.2 == gid)).map (·.1)

/-- st_mode permission bits of the entry at normalised path `n`. -/
def modeAt (fs : FS) (n : String) : Nat :=
  match lookupEntry fs n with
  | some (.file _ m) => m
  | some (.dir m) => m
  | none => 0

/-- Is the entry at `n` a directory (S_ISDIR on the stat result)? -/
def isDirAt (fs : FS) (n : String) : Bool :=
  match lookupEntry fs n with
  | some (.dir _) => true
  | _ => false

/-- st_size: byte length for files, the block size for directories. -/
def sizeAt (fs : FS) (n : String) : Nat :=
  match lookupEntry fs n with
  | some (.file c _) => c.length
  | some (.dir _) => 4096
  | none => 0

/-- The nine rwx characters derived from the permission bits. -/
def rwxString (mode : Nat) : String :=
  String.mk [
    if mode.testBit 8 then 'r' else '-',
    if mode.testBit 7 then 'w' else '-',
    if mode.testBit 6 then 'x' else '-',
    if mode.testBit 5 then 'r' else '-',
    if mode.testBit 4 then 'w' else '-',
    if mode.testBit 3 then 'x' else '-',
    if mode.testBit 2 then 'r' else '-',
    if mode.testBit 1 then 'w' else '-',
    if mode.testBit 0 then 'x' else '-']

/-- Mirrors `Commands::formatLsLongListing`.  `displayName` is the `name`
    argument, `statPath` the path that was stat'ed for the metadata;
    localtime/strftime is the environment parameter `timeFmt`. -/
def formatLsLongListing (fs : FS) (timeFmt : Nat → String)
    (displayName statPath : String) : String :=
  let n := normPath statPath
  let mode := modeAt fs n
  (if isDirAt fs n then "d" else "-") ++ rwxString mode ++
  " " ++ toString (nlinkOf fs n) ++
  " " ++ ((userNameOf fs (ownerOf fs n)).getD (toString (ownerOf fs n))) ++
  " " ++ ((groupNameOf fs (gidOf fs n)).getD (toString (gidOf fs n))) ++
  " " ++ toString (sizeAt fs n) ++
  " " ++ timeFmt (mtimeOf fs n) ++
  " " ++ displayName ++ "\n"

/-! ## Simple handlers -/

/-- Mirrors `Commands::helpCommand`. -/
def helpCommand (args : List String) : CommandResult :=
  if args ≠ [] then ⟨1, "", "help: this command takes no arguments"⟩
  else
    ⟨0,
      "Available Commands:\n" ++
      "  cd [dir]                                 Change directory.\n" ++
      "  clr                                      Clear the screen.\n" ++
      "  dir [-a] [-A] [-l] [path]                List directory contents.\n" ++
      "  environ                                  Display environment variables.\n" ++
      "  echo [text]                              Print text.\n" ++
      "  help                                     Show help.\n" ++
      "  pause                                    Pause shell.\n" ++
      "  quit                                     Exit shell.\n" ++
      "  chmod <mode> <file>                      Change permissions.\n" ++
      "  chown <owner> <file>                     Change ownership.\n" ++
      "  ls [-a] [-A] [-l] [path]                 List directory contents.\n" ++
      "  pwd                                      Print working directory.\n" ++
      "  cat <file>...                            Print file contents.\n" ++
      "  mkdir <dir>                              Create directory.\n" ++
      "  rmdir [-p] <dir>                         Remove directory.\n" ++
      "  rm [-r] <path>                           Remove file or directory.\n" ++
      "  cp <src>... <dst>                        Copy.\n" ++
      "  mv <src> <dst>                           Move.\n" ++
      "  touch <file>                             Create empty file.\n" ++
      "  grep [OPTIONS] <pattern> <file>          Search text.\n" ++
      "  wc [-l] [-w] [-c]                        Count lines/words/chars.", ""⟩

/-- Mirrors `Commands::echoCommand`: each argument followed by a space. -/
def echoCommand (args : List String) : CommandResult :=
  ⟨0, args.foldl (fun out a => out ++ a ++ " ") "", ""⟩

/-- Mirrors `Commands::pauseCommand` (the discarded stdin line is not
    modelled). -/
def pauseCommand (args : List String) : CommandResult :=
  if args ≠ [] then ⟨1, "", "pause: this command takes no arguments"⟩
  else ⟨0, "", ""⟩

/-- Mirrors `Commands::clrCommand`: the terminal-clear escape sequence behind
    the no-trailing-newline sentinel. -/
def clrCommand (args : List String) : CommandResult :=
  if args ≠ [] then ⟨1, "", "clr: takes no arguments"⟩
  else ⟨0, "__NO_NL__\x1b[H\x1b[J", ""⟩

/-- Mirrors `Commands::pwdCommand`. -/
def pwdCommand (fs : FS) (args : List String) : CommandResult :=
  if args ≠ [] then ⟨1, "", "pwd: this command takes no arguments"⟩
  else if fs.getcwdOk then ⟨0, fs.cwd, ""⟩
  else ⟨1, "", "pwd: failed to get current directory"⟩

/-- Mirrors `Commands::environCommand`. -/
def environCommand (fs : FS) (args : List String) : CommandResult :=
  if args ≠ [] then ⟨1, "", "environ: this command takes no arguments"⟩
  else ⟨0, stripTrailingNewline (fs.env.foldl (fun out e => out ++ e ++ "\n") ""), ""⟩

/-- Mirrors `Commands::quitCommand`: `none` models the process exit after the
    farewell line; a result is produced only for the argument error. -/
def quitCommand (args : List String) : Option CommandResult :=
  if args ≠ [] then some ⟨1, "", "quit: this command takes no arguments"⟩
  else none

/-- Mirrors `Commands::cdCommand`; chdir is modelled as requiring the target
    to resolve to a directory, and the cwd records the normalised target. -/
def cdCommand (fs : FS) (args : List String) : FS × CommandResult :=
  if args = [] then
    match lookupEntry fs fs.home with
    | some (.dir _) => ({ fs with cwd := normPath fs.home }, ⟨0, "", ""⟩)
    | _ => (fs, ⟨1, "", "cd: failed to change directory"⟩)
  else if args.length = 1 then
    let path0 := args.headD ""
    let path := if strHead0 path0 = '~' then fs.home ++ path0.drop 1 else path0
    if path = "" then (fs, ⟨1, "", "cd: failed to change directory: " ++ path⟩)
    else
      match lookupEntry fs path with
      | some (.dir _) => ({ fs with cwd := normPath path }, ⟨0, "", ""⟩)
      | _ => (fs, ⟨1, "", "cd: failed to change directory: " ++ path⟩)
  else (fs, ⟨1, "", "cd: too many arguments"⟩)

/-- open with O_CREAT|O_WRONLY on a path that stat said does not exist:
    creates an empty file with mode 0644 when the parent exists. -/
def openCreateSys (fs : FS) (p : String) : Except Errno FS :=
  if p = "" then .error .ENOENT
  else
    let n := normPath p
    if fs.writeBlocked.contains n then .error .EACCES
    else if parentOk fs p then .ok { fs with entries := (n, .file "" 420) :: fs.entries }
    else .error .ENOENT

/-- Mirrors `Commands::touchCommand`; utime-to-now is modelled as a successful
    no-op on the metadata (wall-clock time is outside the model). -/
def touchCommand (fs : FS) (args : List String) : FS × CommandResult :=
  if args = [] ∨ args.length > 1 then
    (fs, ⟨1, "", "touch: invalid arguments passed"⟩)
  else
    let fileName := args.headD ""
    match statSys fs fileName with
    | none =>
      match openCreateSys fs fileName with
      | .ok fs2 => (fs2, ⟨0, "", ""⟩)
      | .error e =>
        (fs, ⟨1, "", "touch: cannot create file '" ++ fileName ++ "': " ++ strerror e⟩)
    | some _ => (fs, ⟨0, "", ""⟩)

/-- The per-file loop of `Commands::catCommand`. -/
def catLoop (fs : FS) : List String → String → Except CommandResult String
  | [], out => .ok out
  | f :: rest, out =>
    match openForRead fs f with
    | .notFound => .error ⟨1, "", "cat: cannot open " ++ f ++ ": " ++ strerror .ENOENT⟩
    | .readErr => .error ⟨1, "", "cat: error reading " ++ f ++ ": " ++ strerror .EISDIR⟩
    | .readsAs c => catLoop fs rest (out ++ c ++ "\n")

/-- Mirrors `Commands::catCommand`. -/
def catCommand (fs : FS) (args : List String) : CommandResult :=
  if args = [] then ⟨1, "", "cat: missing file operand"⟩
  else
    match catLoop fs args "" with
    | .error r => r
    | .ok out => ⟨0, stripTrailingNewline out, ""⟩

/-- The per-target loop of `Commands::chownCommand`. -/
def chownLoop (fs : FS) (uid : Nat) : List String → FS × Option CommandResult
  | [] => (fs, none)
  | f :: rest =>
    match statSys fs f with
    | none =>
      (fs, some ⟨1, "", "chown: cannot access '" ++ f ++ "': " ++ strerror .ENOENT⟩)
    | some _ =>
      match chownSys fs f uid with
      | .error e =>
        (fs, some ⟨1, "", "chown: failed to change owner of '" ++ f ++ "': " ++ strerror e⟩)
      | .ok fs2 => chownLoop fs2 uid rest

/-- Mirrors `Commands::chownCommand`. -/
def chownCommand (fs : FS) (args : List String) : FS × CommandResult :=
  if args = [] then (fs, ⟨1, "", "chown: missing arguments"⟩)
  else if args.length < 2 then (fs, ⟨1, "", "chown: missing operand"⟩)
  else
    match alookup fs.users (args.headD "") with
    | none => (fs, ⟨1, "", "chown: no such user found"⟩)
    | some uid =>
      match chownLoop fs uid (args.drop 1) with
      | (fs2, some r) => (fs2, r)
      | (fs2, none) => (fs2, ⟨0, "", ""⟩)

/-- Mirrors `Commands::chmodCommand`: the permission token goes through
    `std::stoi(perm, nullptr, 8)` whose throw is caught as the
    invalid-permissions error. -/
def chmodCommand (fs : FS) (args : List String) : FS × CommandResult :=
  if args.length ≠ 2 then
    (fs, ⟨1, "", "chmod: requires exactly two arguments: permissions and file"⟩)
  else
    let perm := args.headD ""
    let filename := (args.drop 1).headD ""
    match stoiModel 8 perm with
    | none => (fs, ⟨1, "", "chmod: invalid permissions format"⟩)
    | some mode =>
      match chmodSys fs filename mode with
      | .ok fs2 => (fs2, ⟨0, "", ""⟩)
      | .error e =>
        (fs, ⟨1, "", "chmod: failed to change permissions for '" ++ filename ++ "': " ++ strerror e⟩)

/-! ## ls -/

/-- The flag/operand classification loop of `Commands::lsCommand`. -/
def lsClassify : List String → Bool → Bool → Bool → List String →
    Except CommandResult (Bool × Bool × Bool × List String)
  | [], showAll, almostAll, longList, paths => .ok (showAll, almostAll, longList, paths.reverse)
  | a :: rest, showAll, almostAll, longList, paths =>
    if a = "-a" then lsClassify rest true almostAll longList paths
    else if a = "-A" then lsClassify rest showAll true longList paths
    else if a = "-l" then lsClassify rest showAll almostAll true paths
    else if a.length > 1 ∧ strHead0 a = '-' then
      .error ⟨1, "", "ls: invalid flag -- '" ++ a ++ "'"⟩
    else lsClassify rest showAll almostAll longList (a :: paths)

/-- The readdir loop body of ls over one directory's entry names. -/
def lsDirEntries (fs : FS) (timeFmt : Nat → String)
    (showAll almostAll longList : Bool) (p : String) :
    List String → String → Except CommandResult String
  | [], out => .ok out
  | name :: rest, out =>
    if ¬ showAll ∧ ¬ almostAll ∧ strHead0 name = '.' then
      lsDirEntries fs timeFmt showAll almostAll longList p rest out
    else if almostAll ∧ (name = "." ∨ name = "..") then
      lsDirEntries fs timeFmt showAll almostAll longList p rest out
    else
      let full := p ++ "/" ++ name
      if longList then
        match statSys fs full with
        | none =>
          .error ⟨1, "", "ls: cannot access '" ++ name ++ "': " ++ strerror .ENOENT⟩
        | some _ =>
          lsDirEntries fs timeFmt showAll almostAll longList p rest
            (out ++ formatLsLongListing fs timeFmt name full)
      else lsDirEntries fs timeFmt showAll almostAll longList p rest (out ++ name ++ " ")

/-- The per-operand loop of `Commands::lsCommand`. -/
def lsPaths (fs : FS) (timeFmt : Nat → String)
    (showAll almostAll longList multi : Bool) :
    List String → String → Except CommandResult String
  | [], out => .ok out
  | p :: rest, out =>
    match statSys fs p with
    | none => .error ⟨1, "", "ls: cannot access '" ++ p ++ "': " ++ strerror .ENOENT⟩
    | some (.file _ _) =>
      lsPaths fs timeFmt showAll almostAll longList multi rest
        (out ++ (if longList then formatLsLongListing fs timeFmt p p else p ++ "\n"))
    | some (.dir _) =>
      let out := if multi then out ++ p ++ ":\n" else out
      if fs.opendirBlocked.contains (normPath p) then
        .error ⟨1, "", "ls: cannot open directory '" ++ p ++ "': " ++ strerror .EACCES⟩
      else
        match lsDirEntries fs timeFmt showAll almostAll longList p (childNames fs p) out with
        | .error r => .error r
        | .ok out2 => lsPaths fs timeFmt showAll almostAll longList multi rest out2

/-- Mirrors `Commands::lsCommand`. -/
def lsCommand (fs : FS) (timeFmt : Nat → String) (args : List String) : CommandResult :=
  match lsClassify args false false false [] with
  | .error r => r
  | .ok (showAll, almostAll, longList, paths0) =>
    let paths := if paths0 = [] then ["."] else paths0
    match lsPaths fs timeFmt showAll almostAll longList (paths.length > 1) paths "" with
    | .error r => r
    | .ok out => ⟨0, stripTrailingNewline out, ""⟩

/-- Mirrors `Commands::dirCommand` (alias for ls). -/
def dirCommand (fs : FS) (timeFmt : Nat → String) (args : List String) : CommandResult :=
  lsCommand fs timeFmt args

/-! ## rmdir -/

/-- The `while (!path.empty() && path.back() == '/') path.pop_back();` loop. -/
def stripTrailingSlashes (p : String) : String :=
  String.mk (p.data.reverse.dropWhile (· = '/')).reverse

/-- `path.find_last_of('/')`: everything before the last slash, or `none` when
    the path has no slash. -/
def chopToLastSlash (p : String) : Option String :=
  match p.data.reverse.dropWhile (· ≠ '/') with
  | [] => none
  | _ :: rest => some (String.mk rest.reverse)

/-- The upward-removal loop of the `-p` branch of `Commands::rmdirCommand`. -/
def rmdirUpward (fs : FS) (p : String) : FS × CommandResult :=
  if p = "" then (fs, ⟨0, "", ""⟩)
  else
    match rmdirSys fs p with
    | (fs2, some e) => (fs2, ⟨1, "", formatRmdirErrorMsg e p⟩)
    | (fs2, none) =>
      match hq : chopToLastSlash p with
      | none => (fs2, ⟨0, "", ""⟩)
      | some q =>
        if q = "" ∨ q = "/" then (fs2, ⟨0, "", ""⟩)
        else rmdirUpward fs2 q
termination_by p.length
decreasing_by
  unfold chopToLastSlash at hq
  rcases hd : p.data.reverse.dropWhile (· ≠ '/') with _ | ⟨c, rest⟩
  · rw [hd] at hq; exact absurd hq (by simp)
  · rw [hd] at hq
    simp only [Option.some.injEq] at hq
    have h1 : (p.data.reverse.dropWhile (· ≠ '/')).length ≤ p.data.reverse.length :=
      (List.dropWhile_sublist _).length_le
    rw [hd] at h1
    simp only [List.length_cons, List.length_reverse] at h1
    have h2 : q.length = rest.length := by
      rw [← hq]
      show rest.reverse.length = rest.length
      exact List.length_reverse rest
    show q.length < p.length
    have h3 : p.length = p.data.length := rfl
    omega

/-- Mirrors `Commands::rmdirCommand`. -/
def rmdirCommand (fs : FS) (args : List String) : FS × CommandResult :=
  if args = [] then (fs, ⟨1, "", "rmdir: missing operand"⟩)
  else if args.length = 2 then
    if args.headD "" = "-p" then
      let path := (args.drop 1).headD ""
      if path = "" then (fs, ⟨1, "", "rmdir: no path specified"⟩)
      else rmdirUpward fs (stripTrailingSlashes path)
    else (fs, ⟨1, "", "rmdir: unrecognized option '" ++ args.headD "" ++ "'"⟩)
  else if args.length > 2 then (fs, ⟨1, "", "rmdir: too many arguments"⟩)
  else
    let path := args.headD ""
    match rmdirSys fs path with
    | (fs2, some e) => (fs2, ⟨1, "", formatRmdirErrorMsg e path⟩)
    | (fs2, none) => (fs2, ⟨0, "", ""⟩)

/-! ## mkdir -/

/-- The leading-flag loop of `Commands::mkdirCommand`. -/
def mkdirFlags : List String → Bool → Except CommandResult (Bool × List String)
  | [], recurse => .ok (recurse, [])
  | a :: rest, recurse =>
    if strHead0 a = '-' then
      if a = "-p" then mkdirFlags rest true
      else .error ⟨1, "", "mkdir: invalid option '" ++ a ++ "'"⟩
    else .ok (recurse, a :: rest)

/-- The character-by-character prefix loop of the `-p` branch: attempt a
    mkdir at every slash boundary and at the end of the path, tolerating
    EEXIST. -/
def mkdirPLoop (fs : FS) (partAcc : List Char) : List Char → FS × Option CommandResult
  | [] => (fs, none)
  | c :: rest =>
    let partAcc2 := partAcc ++ [c]
    if c ≠ '/' ∧ rest ≠ [] then mkdirPLoop fs partAcc2 rest
    else
      let partStr := String.mk partAcc2
      if partStr = "/" ∨ partStr = "//" then mkdirPLoop fs partAcc2 rest
      else
        match mkdirSys fs partStr with
        | (fs2, none) => mkdirPLoop fs2 partAcc2 rest
        | (fs2, some e) =>
          if e = .EEXIST then mkdirPLoop fs2 partAcc2 rest
          else
            (fs2, some ⟨1, "", "mkdir: cannot create directory '" ++ partStr ++ "': " ++ strerror e⟩)

/-- The per-operand loop of `Commands::mkdirCommand`. -/
def mkdirPaths (fs : FS) (recurse : Bool) : List String → FS × Option CommandResult
  | [] => (fs, none)
  | path :: rest =>
    if recurse then
      match mkdirPLoop fs [] path.data with
      | (fs2, none) => mkdirPaths fs2 recurse rest
      | (fs2, some r) => (fs2, some r)
    else
      match mkdirSys fs path with
      | (fs2, none) => mkdirPaths fs2 recurse rest
      | (fs2, some e) =>
        (fs2, some ⟨1, "", "mkdir: cannot create directory '" ++ path ++ "': " ++ strerror e⟩)

/-- Mirrors `Commands::mkdirCommand`. -/
def mkdirCommand (fs : FS) (args : List String) : FS × CommandResult :=
  if args = [] then (fs, ⟨1, "", "mkdir: missing directory argument"⟩)
  else
    match mkdirFlags args false with
    | .error r => (fs, r)
    | .ok (recurse, paths) =>
      if paths = [] then (fs, ⟨1, "", "mkdir: missing directory argument"⟩)
      else
        match mkdirPaths fs recurse paths with
        | (fs2, none) => (fs2, ⟨0, "", ""⟩)
        | (fs2, some r) => (fs2, r)

/-! ## cp -/

/-- `src.find_last_of('/')` basename extraction used by cp. -/
def cpBasename (src : String) : String :=
  if src.data.contains '/' then
    String.mk (src.data.reverse.takeWhile (· ≠ '/')).reverse
  else src

/-- The per-source loop of `Commands::cpCommand`. -/
def cpLoop (fs : FS) (destIsDir : Bool) (dest : String) :
    List String → FS × Option CommandResult
  | [] => (fs, none)
  | src :: rest =>
    if isDirIn fs src then
      (fs, some ⟨1, "", "cp: omitting directory '" ++ src ++ "'"⟩)
    else
      let finalDest := if destIsDir then dest ++ "/" ++ cpBasename src else dest
      match openForRead fs src with
      | .notFound =>
        (fs, some ⟨1, "", "cp: cannot open source file '" ++ src ++ "': " ++ strerror .ENOENT⟩)
      | r =>
        match openWriteSys fs finalDest with
        | .error e =>
          (fs, some ⟨1, "", "cp: cannot create destination file '" ++ finalDest ++ "': " ++ strerror e⟩)
        | .ok fs2 =>
          match r with
          | .readErr =>
            (fs2, some ⟨1, "", "cp: read error on '" ++ src ++ "': " ++ strerror .EISDIR⟩)
          | .readsAs c =>
            match writeContentSys fs2 finalDest c with
            | none =>
              (fs2, some ⟨1, "", "cp: write error on '" ++ finalDest ++ "': " ++ strerror .EACCES⟩)
            | some fs3 => cpLoop fs3 destIsDir dest rest
          | .notFound => (fs2, none)

/-- Mirrors `Commands::cpCommand`. -/
def cpCommand (fs : FS) (args : List String) : FS × CommandResult :=
  if args = [] then (fs, ⟨1, "", "cp: missing operand"⟩)
  else if args.length = 1 then
    (fs, ⟨1, "", "cp: missing destination file operand after '" ++ args.headD "" ++ "'"⟩)
  else
    let dest := args.getLastD ""
    let destIsDir := isDirIn fs dest
    if args.length - 1 > 1 ∧ ¬ destIsDir then
      (fs, ⟨1, "", "cp: target '" ++ dest ++ "' is not a directory"⟩)
    else
      match cpLoop fs destIsDir dest args.dropLast with
      | (fs2, some r) => (fs2, r)
      | (fs2, none) => (fs2, ⟨0, "", ""⟩)

/-! ## mv -/

/-- `src.substr(src.find_last_of("/\\") + 1)`: the basename after the last
    slash or backslash (npos + 1 wraps to 0, giving the whole string). -/
def mvBasename (src : String) : String :=
  String.mk (src.data.reverse.takeWhile (fun c => c ≠ '/' ∧ c ≠ '\\')).reverse

/-- Mirrors `Commands::mvCommand`: rename first; on EXDEV fall back to a copy
    of the source followed by an unlink of the original. -/
def mvCommand (fs : FS) (args : List String) : FS × CommandResult :=
  if args.length ≠ 2 then
    (fs, ⟨1, "", "mv: requires exactly two arguments: source and destination"⟩)
  else
    let src := args.headD ""
    let dest0 := (args.drop 1).headD ""
    let dest :=
      if isDirIn fs dest0 then
        (if strLast dest0 ≠ '/' ∧ strLast dest0 ≠ '\\' then dest0 ++ "/" else dest0) ++
          mvBasename src
      else dest0
    match renameSys fs src dest with
    | (fs1, none) => (fs1, ⟨0, "", ""⟩)
    | (fs1, some e) =>
      if e = .EXDEV then
        match openForRead fs1 src with
        | .notFound => (fs1, ⟨1, "", "mv: cannot open source file '" ++ src ++ "'"⟩)
        | r =>
          match openWriteSys fs1 dest with
          | .error _ => (fs1, ⟨1, "", "mv: cannot create destination file '" ++ dest ++ "'"⟩)
          | .ok fs2 =>
            -- the read loop ignores read(2) failures, so a readErr source
            -- copies as empty content
            let content := match r with | .readsAs c => c | _ => ""
            match writeContentSys fs2 dest content with
            | none => (fs2, ⟨1, "", "mv: write error while copying to '" ++ dest ++ "'"⟩)
            | some fs3 =>
              match unlinkSys fs3 src with
              | (fs4, some _) =>
                (fs4, ⟨1, "", "mv: copied but failed to remove original '" ++ src ++ "'"⟩)
              | (fs4, none) => (fs4, ⟨0, "", ""⟩)
      else
        (fs1, ⟨1, "", "mv: failed to move '" ++ src ++ "' to '" ++ dest ++ "': " ++ strerror e⟩)

/-! ## wc -/

/-- Scanner state of the wc character loop. -/
structure WcScan where
  lines : Nat
  words : Nat
  chars : Nat
  inWord : Bool
  lastNl : Bool
  deriving DecidableEq

/-- One character step of the wc loop. -/
def wcStep (st : WcScan) (c : Char) : WcScan :=
  let st := { st with chars := st.chars + 1 }
  let st :=
    if c = '\n' then { st with lines := st.lines + 1, lastNl := true }
    else { st with lastNl := false }
  if c = ' ' ∨ c = '\t' ∨ c = '\n' ∨ c = '\r' then { st with inWord := false }
  else if ¬ st.inWord then { st with words := st.words + 1, inWord := true }
  else st

/-- The whole-content scan (`lastCharWasNewline` starts true). -/
def wcScan (content : String) : WcScan :=
  content.data.foldl wcStep ⟨0, 0, 0, false, true⟩

/-- The counts-line wc appends for one file. -/
def wcRow (cl cw cc : Bool) (lines words chars : Nat) (filename : String) : String :=
  (if cl then toString lines ++ " " else "") ++
  (if cw then toString words ++ " " else "") ++
  (if cc then toString chars ++ " " else "") ++ filename ++ "\n"

/-- The per-file loop of `Commands::wcCommand`. -/
def wcLoop (fs : FS) (cl cw cc : Bool) : List String → String → Except CommandResult String
  | [], out => .ok out
  | f :: rest, out =>
    if isFileEmpty fs f then
      wcLoop fs cl cw cc rest
        (out ++ (if cl then "0 " else "") ++ (if cw then "0 " else "") ++
          (if cc then "0 " else "") ++ f ++ "\n")
    else
      match openForRead fs f with
      | .notFound => .error ⟨1, "", "wc: cannot open file '" ++ f ++ "': " ++ strerror .ENOENT⟩
      | .readErr => .error ⟨1, "", "wc: error reading file '" ++ f ++ "': " ++ strerror .EISDIR⟩
      | .readsAs c =>
        let st := wcScan c
        let lines := if st.lastNl then st.lines else st.lines + 1
        wcLoop fs cl cw cc rest (out ++ wcRow cl cw cc lines st.words st.chars f)

/-- The flag/operand classification loop of `Commands::wcCommand`. -/
def wcClassify : List String → Bool → Bool → Bool → List String →
    Bool × Bool × Bool × List String
  | [], cl, cw, cc, files => (cl, cw, cc, files.reverse)
  | a :: rest, cl, cw, cc, files =>
    if a = "-l" then wcClassify rest true cw cc files
    else if a = "-w" then wcClassify rest cl true cc files
    else if a = "-c" then wcClassify rest cl cw true files
    else wcClassify rest cl cw cc (a :: files)

/-- Mirrors `Commands::wcCommand`. -/
def wcCommand (fs : FS) (args : List String) : CommandResult :=
  match wcClassify args false false false [] with
  | (cl0, cw0, cc0, files) =>
    let all := ¬ cl0 ∧ ¬ cw0 ∧ ¬ cc0
    let cl := if all then true else cl0
    let cw := if all then true else cw0
    let cc := if all then true else cc0
    if files = [] then ⟨1, "", "wc: missing file operand"⟩
    else
      match wcLoop fs cl cw cc files "" with
      | .error r => r
      | .ok out => ⟨0, stripTrailingNewline out, ""⟩

/-! ## rm

The C++ handler deletes a directory tree by unbounded self-recursion
(`rmCommand({"-r", subpath})`), ignoring the recursive call's result.  The
embedding threads the filesystem through the recursion and bounds it with
fuel; any fuel larger than the directory nesting depth gives the behaviour of
the source, and running out of fuel models the unbounded recursion exhausting
the stack. -/

/-- The leading-flag loop of `Commands::rmCommand`: any flag token containing
    'r' enables recursive mode. -/
def rmFlags (recursive : Bool) : List String → Except CommandResult (Bool × List String)
  | [] => .ok (recursive, [])
  | a :: rest =>
    if strHead0 a = '-' then
      if a.data.contains 'r' then
        match rest with
        | [] => .error ⟨1, "", "rm: missing operand after '" ++ a ++ "'"⟩
        | _ => rmFlags true rest
      else .error ⟨1, "", "rm: invalid option '" ++ a ++ "'"⟩
    else .ok (recursive, a :: rest)

mutual

/-- The per-operand loop of `Commands::rmCommand`. -/
def rmPaths (fs : FS) (fuel : Nat) (recursive : Bool) (l : List String) :
    FS × Option CommandResult :=
  match l with
  | [] => (fs, none)
  | path :: rest =>
    match statSys fs path with
    | none => (fs, some ⟨1, "", "rm: cannot access '" ++ path ++ "': " ++ strerror .ENOENT⟩)
    | some (.file _ _) =>
      match unlinkSys fs path with
      | (fs2, some e) =>
        (fs2, some ⟨1, "", "rm: cannot remove '" ++ path ++ "': " ++ strerror e⟩)
      | (fs2, none) => rmPaths fs2 fuel recursive rest
    | some (.dir _) =>
      if recursive then
        match fuel with
        | 0 => (fs, some ⟨1, "", ""⟩)
        | fuel2 + 1 =>
          let names := (childNames fs path).filter (fun n => n ≠ "." ∧ n ≠ "..")
          let fs2 := rmChildren fs fuel2 recursive path names
          match rmdirSys fs2 path with
          | (fs3, some e) =>
            (fs3, some ⟨1, "", "rm: failed to remove directory '" ++ path ++ "': " ++ strerror e⟩)
          | (fs3, none) => rmPaths fs3 (fuel2 + 1) recursive rest
      else (fs, some ⟨1, "", "rm: '" ++ path ++ "' is a directory"⟩)
termination_by (fuel, 1, l.length)

/-- The readdir loop: recursively invoke rm on each child, discarding the
    child's `CommandResult` (as the source does). -/
def rmChildren (fs : FS) (fuel : Nat) (recursive : Bool) (path : String)
    (l : List String) : FS :=
  match l with
  | [] => fs
  | name :: rest =>
    let sub := path ++ "/" ++ name
    let fs2 := (rmRun fs fuel [(if recursive then "-r" else ""), sub]).1
    rmChildren fs2 fuel recursive path rest
termination_by (fuel, 3, l.length)

/-- One full invocation of `Commands::rmCommand` at a given fuel. -/
def rmRun (fs : FS) (fuel : Nat) (args : List String) : FS × CommandResult :=
  if args = [] then (fs, ⟨1, "", "rm: missing operand"⟩)
  else
    match rmFlags false args with
    | .error r => (fs, r)
    | .ok (recursive, paths) =>
      match rmPaths fs fuel recursive paths with
      | (fs2, some r) => (fs2, r)
      | (fs2, none) => (fs2, ⟨0, "", ""⟩)
termination_by (fuel, 2, args.length)

end

/-- Mirrors `Commands::rmCommand`, with enough fuel for any tree held in the
    filesystem state. -/
def rmCommand (fs : FS) (args : List String) : FS × CommandResult :=
  rmRun fs (fs.entries.length + 1) args

/-! ## grep -/

/-- Single-flag option record of `Commands::grepCommand` (`m = -1` means the
    match limit is not set). -/
structure GrepOpts where
  i : Bool := false
  n : Bool := false
  v : Bool := false
  w : Bool := false
  c : Bool := false
  o : Bool := false
  m : Int := -1
  deriving DecidableEq

/-- std::regex is environment functionality: compiling a pattern (with or
    without icase) yields a search function producing the first-match
    substring of a line, or fails for an invalid pattern. -/
structure RegexEngine where
  compile : String → Bool → Option (String → Option String)

/-- Mirrors `Commands::matchesPattern`: regex_search plus the outMatch
    convention (the match text under -o, the whole line otherwise; the
    default-initialised empty string when the search fails). -/
def matchesPattern (search : String → Option String) (line : String)
    (printOnlyMatch : Bool) : Bool × String :=
  match search line with
  | none => (false, "")
  | some m => (true, if printOnlyMatch then m else line)

/-- The leading-flag loop of grep.  `.error none` models the uncaught
    std::stoi exception escaping the handler; `.error (some r)` is an early
    return. -/
def grepParse : List String → Nat → GrepOpts →
    Except (Option CommandResult) (GrepOpts × List String)
  | [], _, o => .ok (o, [])
  | a :: rest, flagCount, o =>
    if strHead0 a = '-' then
      if flagCount + 1 > 1 then
        .error (some ⟨1, "", "grep: only one flag can be used at a time"⟩)
      else if a = "-i" then grepParse rest (flagCount + 1) { o with i := true }
      else if a = "-n" then grepParse rest (flagCount + 1) { o with n := true }
      else if a = "-v" then grepParse rest (flagCount + 1) { o with v := true }
      else if a = "-w" then grepParse rest (flagCount + 1) { o with w := true }
      else if a = "-c" then grepParse rest (flagCount + 1) { o with c := true }
      else if a = "-o" then grepParse rest (flagCount + 1) { o with o := true }
      else if a = "-m" then
        match rest with
        | [] => .error (some ⟨1, "", "grep: missing argument for -m"⟩)
        | s :: rest2 =>
          match stoiModel 10 s with
          | none => .error none
          | some v => grepParse rest2 (flagCount + 1) { o with m := v }
      else .ok (o, a :: rest)
    else .ok (o, a :: rest)

/-- Split the read bytes into the complete lines before each newline plus the
    leftover after the last newline, exactly as the chunked lineBuffer loop
    does. -/
def splitNlGo (acc : List Char) : List Char → List String × String
  | [] => ([], String.mk acc.reverse)
  | c :: rest =>
    if c = '\n' then
      let (ls, leftover) := splitNlGo [] rest
      (String.mk acc.reverse :: ls, leftover)
    else splitNlGo (c :: acc) rest

/-- The sequence of lines grep processes for one file's content: every
    complete line, then the final partial line when it is non-empty. -/
def grepContentLines (content : String) : List String :=
  match splitNlGo [] content.data with
  | (ls, leftover) => ls ++ (if leftover = "" then [] else [leftover])

/-- The text grep appends for one matching line (before the newline). -/
def grepRender (o : GrepOpts) (multiFiles : Bool) (file : String) (ln : Nat)
    (line matchedText : String) : String :=
  (if multiFiles then file ++ ":" else "") ++
  (if o.n then toString ln ++ ":" else "") ++
  (if o.v ∧ ¬ o.o then line else matchedText)

/-- matchesPattern plus the -v inversion. -/
def grepMatchedOf (search : String → Option String) (o : GrepOpts) (line : String) :
    Bool × String :=
  match matchesPattern search line o.o with
  | (matched, mt) => ((if o.v then ¬ matched else matched), mt)

/-- The per-line loop of grep over the numbered lines of one file, carrying
    the cross-file match total and accumulated output; `.error` is the
    match-limit early return. -/
def grepLinesGo (search : String → Option String) (o : GrepOpts) (multiFiles : Bool)
    (file : String) : List (Nat × String) → Nat → String →
    Except CommandResult (Nat × String)
  | [], total, out => .ok (total, out)
  | (ln, line) :: rest, total, out =>
    match grepMatchedOf search o line with
    | (matched, mt) =>
      if matched then
        let total2 := total + 1
        if o.m ≠ -1 ∧ o.m < (total2 : Int) then
          .error (if o.c then ⟨0, toString total2, ""⟩ else ⟨0, popNl out, ""⟩)
        else
          grepLinesGo search o multiFiles file rest total2
            (if o.c then out else out ++ grepRender o multiFiles file ln line mt ++ "\n")
      else grepLinesGo search o multiFiles file rest total out

/-- Process one file: a failing open aborts grep; a directory reads as no
    lines (grep ignores the failing read(2)). -/
def grepFileStep (search : String → Option String) (o : GrepOpts) (multiFiles : Bool)
    (fs : FS) (file : String) (total : Nat) (out : String) :
    Except CommandResult (Nat × String) :=
  match openForRead fs file with
  | .notFound => .error ⟨1, "", "grep: cannot open file '" ++ file ++ "'"⟩
  | .readErr => .ok (total, out)
  | .readsAs content =>
    grepLinesGo search o multiFiles file (List.enumFrom 1 (grepContentLines content)) total out

/-- The per-file loop of grep. -/
def grepFilesGo (search : String → Option String) (o : GrepOpts) (multiFiles : Bool)
    (fs : FS) : List String → Nat → String → Except CommandResult (Nat × String)
  | [], total, out => .ok (total, out)
  | f :: rest, total, out =>
    match grepFileStep search o multiFiles fs f total out with
    | .error r => .error r
    | .ok (t2, o2) => grepFilesGo search o multiFiles fs rest t2 o2

/-- Mirrors `Commands::grepCommand`; `none` models the uncaught std::stoi
    exception of a malformed `-m` argument propagating out of the handler. -/
def grepCommand (eng : RegexEngine) (fs : FS) (args : List String) :
    Option CommandResult :=
  if args.length < 2 then some ⟨1, "", "grep: missing arguments"⟩
  else
    match grepParse args 0 {} with
    | .error r => r
    | .ok (o, restArgs) =>
      match restArgs with
      | [] => some ⟨1, "", "grep: missing pattern"⟩
      | pat0 :: files =>
        if files = [] then some ⟨1, "", "grep: missing file operand"⟩
        else
          let pat := if o.w then "\\b" ++ pat0 ++ "\\b" else pat0
          match eng.compile pat o.i with
          | none => some ⟨1, "", "grep: invalid regex"⟩
          | some search =>
            match grepFilesGo search o (decide (1 < files.length)) fs files 0 "" with
            | .error r => some r
            | .ok (total, out) =>
              if o.c then some ⟨0, toString total, ""⟩
              else if total = 0 then some ⟨1, "", ""⟩
              else some ⟨0, stripTrailingNewline out, ""⟩

/-- Literal-pattern instantiation of the regex oracle: for a pattern without
    regex metacharacters, ECMAScript regex_search is substring search and the
    first match is the pattern itself. -/
def litEngine : RegexEngine :=
  ⟨fun pat _ =>
    some (fun line => if decide (pat.data <:+: line.data) then some pat else none)⟩

/-! ## The interaction loop's result rendering (shell.cpp, main) -/

/-- Models one iteration's result-rendering block of `main`: the pair of texts
    written to standard output and to standard error for a `CommandResult`. -/
def renderResult (r : CommandResult) : String × String :=
  let pn0 := false
  let pn1 := if r.status = 0 ∧ r.output ≠ "" then true else pn0
  let sentinel := r.status = 0 ∧ strStartsWith r.output "__NO_NL__"
  let outText :=
    if r.status = 0 then
      (if strStartsWith r.output "__NO_NL__" then strDrop r.output 9 else r.output)
    else ""
  let pn2 := if sentinel then false else pn1
  let errText := if r.status = 1 then r.error else ""
  let pn3 := if r.status = 1 ∧ r.error ≠ "" then true else pn2
  (outText ++ (if pn3 then "\n" else ""), errText)

/-! ## Reference definitions used to state the claims -/

/-- Number of newline characters in a string. -/
def countNl (s : String) : Nat := s.data.count '\n'

/-- Concatenate rendered lines, each followed by a newline (the shape of
    grep's accumulated `out`). -/
def outJoin : List String → String
  | [] => ""
  | a :: rest => a ++ "\n" ++ outJoin rest

/-- Lines joined by single newlines with no trailing newline. -/
def joinLines : List String → String
  | [] => ""
  | [a] => a
  | a :: b :: rest => a ++ "\n" ++ joinLines (b :: rest)

/-- The rendered text of the matching lines among a numbered line list. -/
def grepRenderedOfLines (search : String → Option String) (o : GrepOpts)
    (multiFiles : Bool) (file : String) (lines : List (Nat × String)) : List String :=
  (lines.filter (fun p => (grepMatchedOf search o p.2).1)).map
    (fun p => grepRender o multiFiles file p.1 p.2 (grepMatchedOf search o p.2).2)

/-- The rendered text of the matching lines of one file. -/
def grepRenderedOfFile (search : String → Option String) (o : GrepOpts)
    (multiFiles : Bool) (fs : FS) (file : String) : List String :=
  match openForRead fs file with
  | .readsAs content =>
    grepRenderedOfLines search o multiFiles file (List.enumFrom 1 (grepContentLines content))
  | _ => []

/-- The rendered text of every matching line across all files, in scan order. -/
def grepRenderedAll (search : String → Option String) (o : GrepOpts)
    (multiFiles : Bool) (fs : FS) (files : List String) : List String :=
  (files.map (grepRenderedOfFile search o multiFiles fs)).flatten

/-- The chain of paths the rmdir -p walk visits: the stripped path, then each
    ancestor in upward order, stopping before the filesystem root or an empty
    remainder. -/
def ancestorChain (p : String) : List String :=
  p ::
    (match hq : chopToLastSlash p with
     | none => []
     | some q => if q = "" ∨ q = "/" then [] else ancestorChain q)
termination_by p.length
decreasing_by
  unfold chopToLastSlash at hq
  rcases hd : p.data.reverse.dropWhile (· ≠ '/') with _ | ⟨c, rest⟩
  · rw [hd] at hq; exact absurd hq (by simp)
  · rw [hd] at hq
    simp only [Option.some.injEq] at hq
    have h1 : (p.data.reverse.dropWhile (· ≠ '/')).length ≤ p.data.reverse.length :=
      (List.dropWhile_sublist _).length_le
    rw [hd] at h1
    simp only [List.length_cons, List.length_reverse] at h1
    have h2 : q.length = rest.length := by
      rw [← hq]
      show rest.reverse.length = rest.length
      exact List.length_reverse rest
    show q.length < p.length
    have h3 : p.length = p.data.length := rfl
    omega

/-- Remove each directory of the chain in order; the first failure stops the
    walk with the dedicated error message. -/
def removeChain (fs : FS) : List String → FS × CommandResult
  | [] => (fs, ⟨0, "", ""⟩)
  | q :: rest =>
    match rmdirSys fs q with
    | (fs2, some e) => (fs2, ⟨1, "", formatRmdirErrorMsg e q⟩)
    | (fs2, none) => removeChain fs2 rest

/-- Modelled from the spec (claim C6): `rmdir -p` strips trailing slashes
    first, then removes the named directory and each ancestor path component
    in upward order, ending at the first removal failure, at the filesystem
    root, or when the remaining path is empty. -/
def rmdirPSpec (fs : FS) (path : String) : FS × CommandResult :=
  if path = "" then (fs, ⟨1, "", "rmdir: no path specified"⟩)
  else
    let stripped := stripTrailingSlashes path
    if stripped = "" then (fs, ⟨0, "", ""⟩)
    else removeChain fs (ancestorChain stripped)

/-- The output/error channel discipline of a `CommandResult` (claim C9). -/
def resultChannelsOk (r : CommandResult) : Prop :=
  (r.status = 0 → r.error = "") ∧ (r.status = 1 → r.output = "")

/-! ## String toolkit lemmas -/

theorem smk_data (s : String) : String.mk s.data = s := rfl

theorem sdata_append (s t : String) : (s ++ t).data = s.data ++ t.data :=
  String.data_append s t

theorem sappend_assoc (a b c : String) : a ++ b ++ c = a ++ (b ++ c) :=
  String.ext (by simp [sdata_append])

theorem sappend_empty (s : String) : s ++ "" = s :=
  String.ext (by simp [sdata_append])

theorem sempty_append (s : String) : "" ++ s = s :=
  String.ext (by simp [sdata_append])

theorem sne_empty_iff (s : String) : s ≠ "" ↔ s.data ≠ [] := by
  constructor
  · intro h hd
    exact h (String.ext (by simp [hd]))
  · intro h hd
    exact h (by rw [hd])

theorem slength_eq_zero {c : String} (h : c ≠ "") : c.length ≠ 0 := by
  intro hl
  exact (sne_empty_iff c).mp h (List.length_eq_zero.mp hl)

theorem stripTrailingNewline_concat (s : String) :
    stripTrailingNewline (s ++ "\n") = s := by
  unfold stripTrailingNewline
  have hd : (s ++ "\n").data = s.data ++ ['\n'] := by rw [sdata_append]
  rw [hd, List.getLast?_concat, List.dropLast_concat]
  simp [smk_data]

theorem popNl_append {s t : String} (h : t ≠ "") :
    popNl (s ++ t) = s ++ popNl t := by
  have hd : t.data ≠ [] := (sne_empty_iff t).mp h
  unfold popNl
  rw [sdata_append]
  rw [show (s.data ++ t.data).getLast? = t.data.getLast? by
    rw [List.getLast?_append]
    cases h2 : t.data.getLast? with
    | none => exact absurd (List.getLast?_eq_none_iff.mp h2) hd
    | some a => rfl]
  by_cases hn : t.data.getLast? = some '\n'
  · rw [if_pos hn, if_pos hn, List.dropLast_append_of_ne_nil _ hd]
    exact String.ext (by simp [sdata_append])
  · rw [if_neg hn, if_neg hn]

theorem popNl_concat_nl (s : String) : popNl (s ++ "\n") = s := by
  unfold popNl
  have hd : (s ++ "\n").data = s.data ++ ['\n'] := by rw [sdata_append]
  rw [hd, List.getLast?_concat, List.dropLast_concat]
  simp [smk_data]

theorem outJoin_ne_empty (a : String) (l : List String) : outJoin (a :: l) ≠ "" := by
  rw [sne_empty_iff]
  show (a ++ "\n" ++ outJoin l).data ≠ []
  rw [sdata_append, sdata_append]
  simp

theorem outJoin_append (l₁ l₂ : List String) :
    outJoin (l₁ ++ l₂) = outJoin l₁ ++ outJoin l₂ := by
  induction l₁ with
  | nil => simp [outJoin, sempty_append]
  | cons a rest ih => simp [outJoin, ih, sappend_assoc]

theorem popNl_outJoin (l : List String) : popNl (outJoin l) = joinLines l := by
  induction l with
  | nil => rfl
  | cons a rest ih =>
    cases rest with
    | nil =>
      show popNl (a ++ "\n" ++ outJoin []) = joinLines [a]
      rw [show outJoin ([] : List String) = "" from rfl, sappend_assoc, sappend_empty]
      rw [show (("\n" : String)) = ("\n" : String) from rfl]
      exact popNl_concat_nl a
    | cons b rest2 =>
      show popNl (a ++ "\n" ++ outJoin (b :: rest2)) = a ++ "\n" ++ joinLines (b :: rest2)
      have hne : ("\n" ++ outJoin (b :: rest2)) ≠ "" := by
        rw [sne_empty_iff, sdata_append]
        simp
      have hne2 : outJoin (b :: rest2) ≠ "" := outJoin_ne_empty b rest2
      rw [sappend_assoc, popNl_append hne, popNl_append hne2, ih, sappend_assoc]

/-! ## Claim C10 -/

/-- Claim C10: in the interaction loop's result rendering, a status-1 result
    with non-empty error writes the error text to standard error while the
    appended trailing newline is written to standard output; the
    no-trailing-newline sentinel prefix is only recognised and stripped when
    the status is 0, never on the error channel. -/
theorem claim_C10_render (r : CommandResult) :
    (r.status = 1 → r.error ≠ "" → renderResult r = ("\n", r.error)) ∧
    (r.status = 0 → strStartsWith r.output "__NO_NL__" = true →
      renderResult r = (strDrop r.output 9, "")) := by
  constructor
  · intro h1 h2
    simp [renderResult, h1, h2, sempty_append]
  · intro h1 h2
    simp [renderResult, h1, h2, sappend_empty]

theorem claim_C10_render_witness :
    renderResult ⟨1, "", "__NO_NL__cd: failed"⟩ = ("\n", "__NO_NL__cd: failed") :=
  (claim_C10_render ⟨1, "", "__NO_NL__cd: failed"⟩).1 rfl (by decide)

/-! ## Claim C5 -/

/-- Claim C5: cp with two or more sources and a destination that is not an
    existing directory fails with status 1 and the not-a-directory error, and
    the filesystem is unchanged (nothing is opened, created or written). -/
theorem claim_C5_cp (fs : FS) (args : List String)
    (h2 : 2 < args.length)
    (hd : isDirIn fs (args.getLastD "") = false) :
    cpCommand fs args =
      (fs, ⟨1, "", "cp: target '" ++ args.getLastD "" ++ "' is not a directory"⟩) := by
  unfold cpCommand
  have h0 : args ≠ [] := by
    intro h; subst h; simp at h2
  have h1 : args.length ≠ 1 := by omega
  have h3 : args.length - 1 > 1 := by omega
  simp only [if_neg h0, if_neg h1]
  have hd2 : isDirIn fs (args.getLast?.getD "") = false := by
    rw [← List.getLastD_eq_getLast?]
    exact hd
  rw [if_pos]
  exact ⟨h3, by simp [hd2]⟩

theorem claim_C5_cp_witness :
    cpCommand { entries := [("s1", .file "x" 420), ("s2", .file "y" 420), ("d", .file "z" 420)] }
        ["s1", "s2", "d"] =
      ({ entries := [("s1", .file "x" 420), ("s2", .file "y" 420), ("d", .file "z" 420)] },
        ⟨1, "", "cp: target 'd' is not a directory"⟩) :=
  (claim_C5_cp _ ["s1", "s2", "d"] (by decide) (by decide)).trans (by decide)

/-! ## Claim C7 (corrected) -/

/-- Claim C7 (amended): chmod requires exactly two arguments; the permission
    token goes through std::stoi with base 8, which accepts a longest octal
    digit prefix — a token with no parsable octal prefix (the throwing case)
    yields status 1 with the invalid-permissions error before any filesystem
    change. -/
theorem claim_C7_chmod (fs : FS) (args : List String) (perm file : String) :
    (args.length ≠ 2 →
      chmodCommand fs args =
        (fs, ⟨1, "", "chmod: requires exactly two arguments: permissions and file"⟩)) ∧
    (stoiModel 8 perm = none →
      chmodCommand fs [perm, file] = (fs, ⟨1, "", "chmod: invalid permissions format"⟩)) := by
  constructor
  · intro h
    unfold chmodCommand
    rw [if_pos h]
  · intro h
    unfold chmodCommand
    simp [h]

theorem claim_C7_chmod_witness :
    chmodCommand { entries := [("f", .file "x" 420)] } ["w", "f"] =
      ({ entries := [("f", .file "x" 420)] }, ⟨1, "", "chmod: invalid permissions format"⟩) :=
  (claim_C7_chmod { entries := [("f", .file "x" 420)] } [] "w" "f").2 (by decide)

/-- Claim C7 counterexample: the permission token "08" is not valid octal
    text, yet chmod succeeds (status 0) and changes the file's mode to 0 —
    std::stoi base 8 parses the octal prefix "0" and ignores the rest. -/
theorem claim_C7_chmod_counterexample :
    chmodCommand { entries := [("f", .file "x" 420)] } ["08", "f"] =
      ({ entries := [("f", .file "x" 0)] }, ⟨0, "", ""⟩) := by decide

/-! ## Claim C2: wc line counting -/

theorem wcStep_lines (st : WcScan) (c : Char) :
    (wcStep st c).lines = st.lines + (if c = '\n' then 1 else 0) := by
  unfold wcStep
  by_cases h : c = '\n' <;> simp [h] <;> split <;> simp_all <;> split <;> simp_all

theorem wcStep_lastNl (st : WcScan) (c : Char) :
    (wcStep st c).lastNl = decide (c = '\n') := by
  unfold wcStep
  by_cases h : c = '\n' <;> simp [h] <;> split <;> simp_all <;> split <;> simp_all

theorem wcFold_lines (cs : List Char) (st : WcScan) :
    (cs.foldl wcStep st).lines = st.lines + cs.count '\n' := by
  induction cs generalizing st with
  | nil => simp
  | cons c rest ih =>
    rw [List.foldl_cons, ih, wcStep_lines, List.count_cons]
    by_cases h : c = '\n' <;> simp [h] <;> omega

theorem wcFold_lastNl (cs : List Char) (st : WcScan) (h : cs ≠ []) :
    (cs.foldl wcStep st).lastNl = decide (cs.getLast? = some '\n') := by
  induction cs generalizing st with
  | nil => exact absurd rfl h
  | cons c rest ih =>
    rw [List.foldl_cons]
    cases rest with
    | nil => simp [wcStep_lastNl]
    | cons b rest2 =>
      rw [ih _ (by simp), List.getLast?_cons_cons]

/-- Claim C2: for a non-empty file not ending in a newline, wc's line count is
    the number of newline characters plus one; for a file ending in a newline
    it is exactly the number of newline characters.  Stated on the `wc -l`
    invocation for a file resolving to content `c`. -/
theorem claim_C2_wc (fs : FS) (f c : String)
    (hf : openForRead fs f = .readsAs c) (hc : c ≠ "")
    (h1 : f ≠ "-l") (h2 : f ≠ "-w") (h3 : f ≠ "-c") :
    wcCommand fs ["-l", f] =
      ⟨0, toString (countNl c + (if c.data.getLast? = some '\n' then 0 else 1)) ++ " " ++ f,
        ""⟩ := by
  have hne : f ≠ "" := by
    intro h
    rw [h] at hf
    simp [openForRead] at hf
  have hstat : statSys fs f = some (.file c ((match lookupEntry fs f with
      | some (.file _ m) => m | _ => 0))) := by
    unfold openForRead at hf
    rw [if_neg hne] at hf
    unfold statSys
    rw [if_neg hne]
    cases he : lookupEntry fs f with
    | none => rw [he] at hf; exact absurd hf (by simp)
    | some e =>
      cases e with
      | file c2 m => rw [he] at hf; simp at hf; simp [he, hf]
      | dir m => rw [he] at hf; exact absurd hf (by simp)
  have hempty : isFileEmpty fs f = false := by
    unfold isFileEmpty
    rw [hstat]
    simp [slength_eq_zero hc]
  have hclassify : wcClassify ["-l", f] false false false [] = (true, false, false, [f]) := by
    unfold wcClassify
    simp only [if_pos rfl]
    unfold wcClassify
    rw [if_neg h1, if_neg h2, if_neg h3]
    rfl
  unfold wcCommand
  rw [hclassify]
  simp only [not_true, false_and, if_false, ite_false, ite_true]
  rw [if_neg (by simp : ¬ ([f] = ([] : List String)))]
  unfold wcLoop
  rw [hempty, hf]
  simp only
  unfold wcLoop
  have hlines : (if (wcScan c).lastNl then (wcScan c).lines else (wcScan c).lines + 1) =
      countNl c + (if c.data.getLast? = some '\n' then 0 else 1) := by
    have hd : c.data ≠ [] := (sne_empty_iff c).mp hc
    unfold wcScan
    rw [wcFold_lastNl _ _ hd, wcFold_lines]
    by_cases hl : c.data.getLast? = some '\n' <;> simp [hl, countNl]
  rw [show wcRow true false false (if (wcScan c).lastNl then (wcScan c).lines
        else (wcScan c).lines + 1) (wcScan c).words (wcScan c).chars f =
      toString (countNl c + (if c.data.getLast? = some '\n' then 0 else 1)) ++ " " ++ f ++ "\n" by
    unfold wcRow
    rw [hlines]
    simp [sappend_empty, sappend_assoc]]
  rw [if_neg (by simp : ¬ (false = true))]
  simp only [sempty_append, stripTrailingNewline_concat]

theorem claim_C2_wc_witness :
    wcCommand { entries := [("g", .file "a b\nc" 420)] } ["-l", "g"] = ⟨0, "2 g", ""⟩ :=
  (claim_C2_wc { entries := [("g", .file "a b\nc" 420)] } "g" "a b\nc" rfl (by decide)
    (by decide) (by decide) (by decide)).trans (by decide)

/-! ## Claim C3: mkdir -p idempotence -/

theorem alookup_cons {α : Type} (k : String) (v : α) (l : List (String × α)) (key : String) :
    alookup ((k, v) :: l) key = if k = key then some v else alookup l key := rfl

theorem mkdirSys_err {fs fs2 : FS} {p : String} {e : Errno}
    (h : mkdirSys fs p = (fs2, some e)) : fs2 = fs := by
  simp only [mkdirSys] at h
  by_cases hp : p = ""
  · rw [if_pos hp, Prod.mk.injEq] at h; exact h.1.symm
  · rw [if_neg hp] at h
    by_cases hs : (lookupN fs (normPath p)).isSome = true
    · rw [if_pos hs, Prod.mk.injEq] at h; exact h.1.symm
    · rw [if_neg hs] at h
      by_cases hpar : parentOk fs p = true
      · rw [if_pos hpar, Prod.mk.injEq] at h; exact absurd h.2 (by simp)
      · rw [if_neg hpar, Prod.mk.injEq] at h; exact h.1.symm

theorem mkdirSys_eexist {fs fs2 : FS} {p : String}
    (h : mkdirSys fs p = (fs2, some .EEXIST)) :
    (lookupN fs (normPath p)).isSome = true := by
  simp only [mkdirSys] at h
  by_cases hp : p = ""
  · rw [if_pos hp, Prod.mk.injEq] at h; exact absurd h.2.symm (by simp)
  · rw [if_neg hp] at h
    by_cases hs : (lookupN fs (normPath p)).isSome = true
    · exact hs
    · rw [if_neg hs] at h
      by_cases hpar : parentOk fs p = true
      · rw [if_pos hpar, Prod.mk.injEq] at h; exact absurd h.2 (by simp)
      · rw [if_neg hpar, Prod.mk.injEq] at h; exact absurd h.2.symm (by simp)

theorem mkdirSys_ok {fs fs2 : FS} {p : String}
    (h : mkdirSys fs p = (fs2, none)) :
    p ≠ "" ∧ lookupN fs (normPath p) = none ∧
      fs2 = { fs with entries := (normPath p, .dir 493) :: fs.entries } := by
  simp only [mkdirSys] at h
  by_cases hp : p = ""
  · rw [if_pos hp, Prod.mk.injEq] at h; exact absurd h.2 (by simp)
  · rw [if_neg hp] at h
    by_cases hs : (lookupN fs (normPath p)).isSome = true
    · rw [if_pos hs, Prod.mk.injEq] at h; exact absurd h.2 (by simp)
    · rw [if_neg hs] at h
      by_cases hpar : parentOk fs p = true
      · rw [if_pos hpar, Prod.mk.injEq] at h
        exact ⟨hp, Option.not_isSome_iff_eq_none.mp (by simp [hs]), h.1.symm⟩
      · rw [if_neg hpar, Prod.mk.injEq] at h; exact absurd h.2 (by simp)

theorem mkdirSys_preserves {fs fs2 : FS} {p : String} {res : Option Errno}
    (h : mkdirSys fs p = (fs2, res)) {key : String} {e : Entry}
    (he : lookupN fs key = some e) : lookupN fs2 key = some e := by
  cases res with
  | some err => rw [mkdirSys_err h]; exact he
  | none =>
    obtain ⟨-, hnone, rfl⟩ := mkdirSys_ok h
    unfold lookupN at he ⊢
    by_cases hv : isVirtualDir key = true
    · simpa [hv] using he
    · rw [if_neg (by simp [hv])] at he ⊢
      show alookup ((normPath p, Entry.dir 493) :: fs.entries) key = some e
      rw [alookup_cons]
      by_cases hk : normPath p = key
      · exfalso
        unfold lookupN at hnone
        rw [hk, if_neg (by simp [hv]), he] at hnone
        exact absurd hnone (by simp)
      · rw [if_neg hk]; exact he

theorem mkdirSys_created {fs fs2 : FS} {p : String}
    (h : mkdirSys fs p = (fs2, none)) :
    lookupN fs2 (normPath p) = some (.dir 493) := by
  obtain ⟨-, hnone, rfl⟩ := mkdirSys_ok h
  unfold lookupN at hnone ⊢
  by_cases hv : isVirtualDir (normPath p) = true
  · rw [if_pos hv] at hnone; exact absurd hnone (by simp)
  · rw [if_neg (by simp [hv])]
    show alookup ((normPath p, Entry.dir 493) :: fs.entries) (normPath p) = some (.dir 493)
    rw [alookup_cons, if_pos rfl]

theorem mkdirPLoop_preserves {cs : List Char} {fs fs2 : FS} {acc : List Char}
    {res : Option CommandResult} (h : mkdirPLoop fs acc cs = (fs2, res))
    {key : String} {e : Entry} (he : lookupN fs key = some e) :
    lookupN fs2 key = some e := by
  induction cs generalizing fs acc with
  | nil =>
    simp only [mkdirPLoop, Prod.mk.injEq] at h
    rw [← h.1]; exact he
  | cons c rest ih =>
    simp only [mkdirPLoop] at h
    by_cases h1 : c ≠ '/' ∧ rest ≠ []
    · rw [if_pos h1] at h
      exact ih h he
    · rw [if_neg h1] at h
      by_cases h2 : String.mk (acc ++ [c]) = "/" ∨ String.mk (acc ++ [c]) = "//"
      · rw [if_pos h2] at h
        exact ih h he
      · rw [if_neg h2] at h
        split at h
        · rename_i fsM hsys
          exact ih h (mkdirSys_preserves hsys he)
        · rename_i fsM err hsys
          by_cases h3 : err = Errno.EEXIST
          · rw [if_pos h3] at h
            exact ih h (mkdirSys_preserves hsys he)
          · rw [if_neg h3, Prod.mk.injEq] at h
            rw [← h.1]
            exact mkdirSys_preserves hsys he

theorem mk_append_ne_empty (acc : List Char) (c : Char) :
    String.mk (acc ++ [c]) ≠ "" := by
  rw [sne_empty_iff]
  simp

theorem mkdirSys_of_isSome {fs : FS} {p : String}
    (hp : p ≠ "") (hs : (lookupN fs (normPath p)).isSome = true) :
    mkdirSys fs p = (fs, some .EEXIST) := by
  simp only [mkdirSys]
  rw [if_neg hp, if_pos hs]

theorem mkdirPLoop_step_skip (fs : FS) (acc : List Char) (c : Char) (rest : List Char)
    (h1 : c ≠ '/' ∧ rest ≠ []) :
    mkdirPLoop fs acc (c :: rest) = mkdirPLoop fs (acc ++ [c]) rest := by
  simp only [mkdirPLoop]
  rw [if_pos h1]

theorem mkdirPLoop_step_root (fs : FS) (acc : List Char) (c : Char) (rest : List Char)
    (h1 : ¬ (c ≠ '/' ∧ rest ≠ []))
    (h2 : String.mk (acc ++ [c]) = "/" ∨ String.mk (acc ++ [c]) = "//") :
    mkdirPLoop fs acc (c :: rest) = mkdirPLoop fs (acc ++ [c]) rest := by
  simp only [mkdirPLoop]
  rw [if_neg h1, if_pos h2]

theorem mkdirPLoop_step_eexist (fs : FS) (acc : List Char) (c : Char) (rest : List Char)
    (h1 : ¬ (c ≠ '/' ∧ rest ≠ []))
    (h2 : ¬ (String.mk (acc ++ [c]) = "/" ∨ String.mk (acc ++ [c]) = "//"))
    (hs : (lookupN fs (normPath (String.mk (acc ++ [c])))).isSome = true) :
    mkdirPLoop fs acc (c :: rest) = mkdirPLoop fs (acc ++ [c]) rest := by
  simp only [mkdirPLoop]
  rw [if_neg h1, if_neg h2, mkdirSys_of_isSome (mk_append_ne_empty acc c) hs]
  simp

/-- `fs2` holds every entry `fs1` holds (states only grow along mkdir -p). -/
def fsSup (fs2 fs1 : FS) : Prop :=
  ∀ key e, lookupN fs1 key = some e → lookupN fs2 key = some e

theorem mkdirPLoop_noop {cs : List Char} {fs fsX fs2 : FS} {acc : List Char}
    (h : mkdirPLoop fs acc cs = (fsX, none)) (hsup : fsSup fs2 fsX) :
    mkdirPLoop fs2 acc cs = (fs2, none) := by
  induction cs generalizing fs acc with
  | nil => simp only [mkdirPLoop]
  | cons c rest ih =>
    simp only [mkdirPLoop] at h
    by_cases h1 : c ≠ '/' ∧ rest ≠ []
    · rw [if_pos h1] at h
      rw [mkdirPLoop_step_skip fs2 acc c rest h1]
      exact ih h
    · rw [if_neg h1] at h
      by_cases h2 : String.mk (acc ++ [c]) = "/" ∨ String.mk (acc ++ [c]) = "//"
      · rw [if_pos h2] at h
        rw [mkdirPLoop_step_root fs2 acc c rest h1 h2]
        exact ih h
      · rw [if_neg h2] at h
        split at h
        · rename_i fsM hsys
          have hcreated : lookupN fsM (normPath (String.mk (acc ++ [c]))) = some (.dir 493) :=
            mkdirSys_created hsys
          have hX : lookupN fsX (normPath (String.mk (acc ++ [c]))) = some (.dir 493) :=
            mkdirPLoop_preserves h hcreated
          have hfinal : (lookupN fs2 (normPath (String.mk (acc ++ [c])))).isSome = true := by
            rw [hsup _ _ hX]; rfl
          rw [mkdirPLoop_step_eexist fs2 acc c rest h1 h2 hfinal]
          exact ih h
        · rename_i fsM err hsys
          by_cases h3 : err = Errno.EEXIST
          · rw [if_pos h3] at h
            rw [h3] at hsys
            have hfs : fsM = fs := mkdirSys_err hsys
            rw [hfs] at h
            have hsome : (lookupN fs (normPath (String.mk (acc ++ [c])))).isSome = true :=
              mkdirSys_eexist hsys
            obtain ⟨e2, he2⟩ := Option.isSome_iff_exists.mp hsome
            have hX : lookupN fsX (normPath (String.mk (acc ++ [c]))) = some e2 :=
              mkdirPLoop_preserves h he2
            have hfinal : (lookupN fs2 (normPath (String.mk (acc ++ [c])))).isSome = true := by
              rw [hsup _ _ hX]; rfl
            rw [mkdirPLoop_step_eexist fs2 acc c rest h1 h2 hfinal]
            exact ih h
          · rw [if_neg h3, Prod.mk.injEq] at h
            exact absurd h.2 (by simp)

theorem mkdirPaths_cons_true (fs : FS) (p : String) (rest : List String) :
    mkdirPaths fs true (p :: rest) =
      (match mkdirPLoop fs [] p.data with
       | (fsM, none) => mkdirPaths fsM true rest
       | (fsM, some r) => (fsM, some r)) := by
  simp [mkdirPaths]

theorem mkdirPaths_preserves {paths : List String} {fs fs2 : FS}
    {res : Option CommandResult} (h : mkdirPaths fs true paths = (fs2, res))
    {key : String} {e : Entry} (he : lookupN fs key = some e) :
    lookupN fs2 key = some e := by
  induction paths generalizing fs with
  | nil =>
    simp only [mkdirPaths, Prod.mk.injEq] at h
    rw [← h.1]; exact he
  | cons p rest ih =>
    rw [mkdirPaths_cons_true] at h
    split at h
    · rename_i fsM hloop
      exact ih h (mkdirPLoop_preserves hloop he)
    · rename_i fsM r hloop
      rw [Prod.mk.injEq] at h
      rw [← h.1]
      exact mkdirPLoop_preserves hloop he

theorem mkdirPaths_noop {paths : List String} {fs fsX fs2 : FS}
    (h : mkdirPaths fs true paths = (fsX, none)) (hsup : fsSup fs2 fsX) :
    mkdirPaths fs2 true paths = (fs2, none) := by
  induction paths generalizing fs with
  | nil => simp only [mkdirPaths]
  | cons p rest ih =>
    rw [mkdirPaths_cons_true] at h
    rw [mkdirPaths_cons_true]
    split at h
    · rename_i fsM hloop
      have hsupM : fsSup fs2 fsM := fun key e he =>
        hsup key e (mkdirPaths_preserves h he)
      rw [mkdirPLoop_noop hloop hsupM]
      exact ih h
    · rename_i fsM r hloop
      rw [Prod.mk.injEq] at h
      exact absurd h.2 (by simp)

theorem mkdirFlags_stays_true {l : List String} {b : Bool} {ps : List String}
    (h : mkdirFlags l true = .ok (b, ps)) : b = true := by
  induction l with
  | nil =>
    unfold mkdirFlags at h
    rw [Except.ok.injEq, Prod.mk.injEq] at h
    exact h.1.symm
  | cons a rest ih =>
    unfold mkdirFlags at h
    split at h
    · split at h
      · exact ih h
      · exact absurd h (by simp)
    · rw [Except.ok.injEq, Prod.mk.injEq] at h
      exact h.1.symm

theorem mkdirFlags_err_status {l : List String} {b : Bool} {r : CommandResult}
    (h : mkdirFlags l b = .error r) : r.status = 1 := by
  induction l generalizing b with
  | nil => unfold mkdirFlags at h; exact absurd h (by simp)
  | cons a rest ih =>
    unfold mkdirFlags at h
    split at h
    · split at h
      · exact ih h
      · rw [Except.error.injEq] at h
        rw [← h]
    · exact absurd h (by simp)

theorem mkdirPLoop_some_status {cs : List Char} {fs fs2 : FS} {acc : List Char}
    {r : CommandResult} (h : mkdirPLoop fs acc cs = (fs2, some r)) : r.status = 1 := by
  induction cs generalizing fs acc with
  | nil =>
    simp only [mkdirPLoop, Prod.mk.injEq] at h
    exact absurd h.2 (by simp)
  | cons c rest ih =>
    simp only [mkdirPLoop] at h
    by_cases h1 : c ≠ '/' ∧ rest ≠ []
    · rw [if_pos h1] at h
      exact ih h
    · rw [if_neg h1] at h
      by_cases h2 : String.mk (acc ++ [c]) = "/" ∨ String.mk (acc ++ [c]) = "//"
      · rw [if_pos h2] at h
        exact ih h
      · rw [if_neg h2] at h
        split at h
        · exact ih h
        · rename_i fsM err hsys
          by_cases h3 : err = Errno.EEXIST
          · rw [if_pos h3] at h
            exact ih h
          · rw [if_neg h3, Prod.mk.injEq, Option.some.injEq] at h
            rw [← h.2]

theorem mkdirPaths_some_status {paths : List String} {fs fs2 : FS}
    {r : CommandResult} (h : mkdirPaths fs true paths = (fs2, some r)) : r.status = 1 := by
  induction paths generalizing fs with
  | nil =>
    simp only [mkdirPaths, Prod.mk.injEq] at h
    exact absurd h.2 (by simp)
  | cons p rest ih =>
    rw [mkdirPaths_cons_true] at h
    split at h
    · exact ih h
    · rename_i fsM rM hloopM
      rw [Prod.mk.injEq, Option.some.injEq] at h
      rw [← h.2]
      exact mkdirPLoop_some_status hloopM

/-- Claim C3: running `mkdir -p` twice is idempotent — when a first run
    succeeds (status 0), rerunning the same invocation on the resulting
    filesystem succeeds again (status 0) and leaves the filesystem unchanged
    (no directory is created or modified). -/
theorem claim_C3_mkdir (fs fs1 : FS) (args : List String) (r1 : CommandResult)
    (hp : args.headD "" = "-p")
    (hrun : mkdirCommand fs args = (fs1, r1)) (hok : r1.status = 0) :
    mkdirCommand fs1 args = (fs1, ⟨0, "", ""⟩) := by
  have hne : args ≠ [] := by
    intro h; rw [h] at hp; exact absurd hp (by decide)
  cases hargs : args with
  | nil => exact absurd hargs hne
  | cons a rest =>
    subst hargs
    have ha : a = "-p" := by simpa using hp
    subst ha
    have hflag : mkdirFlags ("-p" :: rest) false = mkdirFlags rest true := by
      have h0 : strHead0 "-p" = '-' := by decide
      simp [mkdirFlags, h0]
    cases hf : mkdirFlags rest true with
    | error rerr =>
      have hcmd : mkdirCommand fs ("-p" :: rest) = (fs, rerr) := by
        unfold mkdirCommand
        rw [if_neg hne, hflag, hf]
      rw [hcmd, Prod.mk.injEq] at hrun
      rw [← hrun.2] at hok
      rw [mkdirFlags_err_status hf] at hok
      exact absurd hok (by decide)
    | ok pr =>
      obtain ⟨b, paths⟩ := pr
      have hb : b = true := mkdirFlags_stays_true hf
      subst hb
      by_cases hps : paths = []
      · subst hps
        have hcmd : mkdirCommand fs ("-p" :: rest) =
            (fs, ⟨1, "", "mkdir: missing directory argument"⟩) := by
          unfold mkdirCommand
          rw [if_neg hne, hflag, hf]
          simp
        rw [hcmd, Prod.mk.injEq] at hrun
        rw [← hrun.2] at hok
        exact absurd hok (by decide)
      · cases hm : mkdirPaths fs true paths with
        | mk fsX res =>
          cases res with
          | some r =>
            have hcmd : mkdirCommand fs ("-p" :: rest) = (fsX, r) := by
              unfold mkdirCommand
              rw [if_neg hne, hflag, hf]
              simp only [if_neg hps]
              rw [hm]
            rw [hcmd, Prod.mk.injEq] at hrun
            rw [← hrun.2] at hok
            rw [mkdirPaths_some_status hm] at hok
            exact absurd hok (by decide)
          | none =>
            have hcmd : mkdirCommand fs ("-p" :: rest) = (fsX, ⟨0, "", ""⟩) := by
              unfold mkdirCommand
              rw [if_neg hne, hflag, hf]
              simp only [if_neg hps]
              rw [hm]
            rw [hcmd, Prod.mk.injEq] at hrun
            obtain ⟨h1, h2⟩ := hrun
            subst h1
            unfold mkdirCommand
            rw [if_neg hne, hflag, hf]
            simp only [if_neg hps]
            rw [mkdirPaths_noop hm (fun key e he => he)]

theorem claim_C3_mkdir_witness :
    mkdirCommand { entries := [("a/b/c", Entry.dir 493), ("a/b", Entry.dir 493),
        ("a", Entry.dir 493)] } ["-p", "a/b/c"] =
      ({ entries := [("a/b/c", Entry.dir 493), ("a/b", Entry.dir 493),
        ("a", Entry.dir 493)] }, ⟨0, "", ""⟩) :=
  claim_C3_mkdir { entries := [] } _ ["-p", "a/b/c"] ⟨0, "", ""⟩ (by decide)
    (by decide) (by decide)

/-! ## Claim C6: rmdir -p -/

theorem chopToLastSlash_lt {p q : String} (h : chopToLastSlash p = some q) :
    q.length < p.length := by
  unfold chopToLastSlash at h
  cases hd : p.data.reverse.dropWhile (· ≠ '/') with
  | nil => rw [hd] at h; exact absurd h (by simp)
  | cons c rest =>
    rw [hd] at h
    simp only [Option.some.injEq] at h
    have h1 : (p.data.reverse.dropWhile (· ≠ '/')).length ≤ p.data.reverse.length :=
      (List.dropWhile_sublist _).length_le
    rw [hd] at h1
    simp only [List.length_cons, List.length_reverse] at h1
    have h2 : q.length = rest.length := by
      rw [← h]
      show rest.reverse.length = rest.length
      exact List.length_reverse rest
    show q.length < p.data.length
    omega

theorem removeChain_nil (fs : FS) : removeChain fs [] = (fs, ⟨0, "", ""⟩) := rfl

theorem removeChain_cons (fs : FS) (q : String) (rest : List String) :
    removeChain fs (q :: rest) =
      (match rmdirSys fs q with
       | (fs2, some e) => (fs2, ⟨1, "", formatRmdirErrorMsg e q⟩)
       | (fs2, none) => removeChain fs2 rest) := rfl

theorem rmdirUpward_step (fs : FS) (p : String) (hp : p ≠ "") :
    rmdirUpward fs p =
      (match rmdirSys fs p with
       | (fs2, some e) => (fs2, ⟨1, "", formatRmdirErrorMsg e p⟩)
       | (fs2, none) =>
         match chopToLastSlash p with
         | none => (fs2, ⟨0, "", ""⟩)
         | some q =>
           if q = "" ∨ q = "/" then (fs2, ⟨0, "", ""⟩) else rmdirUpward fs2 q) := by
  rw [rmdirUpward, if_neg hp]
  cases hr : rmdirSys fs p with
  | mk fs2 res =>
    cases res with
    | some e => rfl
    | none =>
      cases hq2 : chopToLastSlash p with
      | none => rfl
      | some q => rfl

theorem ancestorChain_step (p : String) :
    ancestorChain p = p ::
      (match chopToLastSlash p with
       | none => []
       | some q => if q = "" ∨ q = "/" then [] else ancestorChain q) := by
  rw [ancestorChain]
  cases hq2 : chopToLastSlash p with
  | none => rfl
  | some q => rfl

theorem rmdirUpward_eq_chain (n : Nat) : ∀ (fs : FS) (p : String), p.length ≤ n → p ≠ "" →
    rmdirUpward fs p = removeChain fs (ancestorChain p) := by
  induction n with
  | zero =>
    intro fs p hl hp
    exfalso
    have h1 : p.data ≠ [] := (sne_empty_iff p).mp hp
    have h2 : p.data.length ≠ 0 := by
      intro h0; exact h1 (List.length_eq_zero.mp h0)
    have h3 : p.length = p.data.length := rfl
    omega
  | succ n ih =>
    intro fs p hl hp
    rw [rmdirUpward_step fs p hp, ancestorChain_step, removeChain_cons]
    cases hr : rmdirSys fs p with
    | mk fs2 res =>
      cases res with
      | some e => rfl
      | none =>
        cases hq : chopToLastSlash p with
        | none => rfl
        | some q =>
          by_cases hroot : q = "" ∨ q = "/"
          · simp [hroot, removeChain_nil]
          · simp only [hroot, if_false, ite_false]
            have hlen : q.length < p.length := chopToLastSlash_lt hq
            exact ih fs2 q (by omega) (fun h0 => hroot (Or.inl h0))

/-- Claim C6: the `-p` form of rmdir strips trailing slashes first, then
    removes the named directory and each ancestor path component in upward
    order, ending at the first removal failure (reported through the
    dedicated error formatter), at the filesystem root, or when the remaining
    path is empty; and the formatter maps directory-not-empty, not-found,
    not-a-directory and permission errnos to their dedicated messages. -/
theorem claim_C6_rmdir :
    (∀ (fs : FS) (path : String), rmdirCommand fs ["-p", path] = rmdirPSpec fs path) ∧
    (∀ p, formatRmdirErrorMsg .ENOTEMPTY p =
      "rmdir: failed to remove '" ++ p ++ "': directory not empty") ∧
    (∀ p, formatRmdirErrorMsg .ENOENT p =
      "rmdir: failed to remove '" ++ p ++ "': no such file or directory") ∧
    (∀ p, formatRmdirErrorMsg .ENOTDIR p =
      "rmdir: failed to remove '" ++ p ++ "': not a directory") ∧
    (∀ p, formatRmdirErrorMsg .EACCES p =
      "rmdir: failed to remove '" ++ p ++ "': permission denied") := by
  refine ⟨?_, fun p => rfl, fun p => rfl, fun p => rfl, fun p => rfl⟩
  intro fs path
  have hcmd : rmdirCommand fs ["-p", path] =
      (if path = "" then (fs, ⟨1, "", "rmdir: no path specified"⟩)
       else rmdirUpward fs (stripTrailingSlashes path)) := by
    unfold rmdirCommand
    rw [if_neg (by simp : ¬ (["-p", path] = ([] : List String)))]
    rw [if_pos (by simp : (["-p", path] : List String).length = 2)]
    rw [if_pos (by simp : (["-p", path] : List String).headD "" = "-p")]
    rfl
  rw [hcmd]
  unfold rmdirPSpec
  by_cases hp : path = ""
  · rw [if_pos hp, if_pos hp]
  · rw [if_neg hp, if_neg hp]
    by_cases hs : stripTrailingSlashes path = ""
    · rw [hs, if_pos rfl, rmdirUpward, if_pos rfl]
    · rw [if_neg hs]
      exact rmdirUpward_eq_chain (stripTrailingSlashes path).length fs _ le_rfl hs

/-! ## Claim C4: mv cross-device fallback -/

theorem alookup_aset_self {l : List (String × Entry)} {k : String} {v0 : Entry}
    (h : alookup l k = some v0) (v : Entry) : alookup (aset l k v) k = some v := by
  induction l with
  | nil => exact absurd h (by simp [alookup])
  | cons e rest ih =>
    show alookup ((if e.1 = k then (k, v) else e) :: aset rest k v) k = some v
    by_cases hk : e.1 = k
    · rw [if_pos hk, alookup_cons, if_pos rfl]
    · rw [if_neg hk]
      rw [show alookup (e :: aset rest k v) k =
        (if e.1 = k then some e.2 else alookup (aset rest k v) k) from rfl, if_neg hk]
      apply ih
      rw [show alookup (e :: rest) k = (if e.1 = k then some e.2 else alookup rest k) from rfl,
        if_neg hk] at h
      exact h

theorem alookup_aset_other {l : List (String × Entry)} {k k2 : String} (hne : k2 ≠ k)
    (v : Entry) : alookup (aset l k v) k2 = alookup l k2 := by
  induction l with
  | nil => rfl
  | cons e rest ih =>
    by_cases hk : e.1 = k
    · show alookup ((if e.1 = k then (k, v) else e) :: aset rest k v) k2 = _
      rw [if_pos hk]
      rw [alookup_cons, if_neg (fun h => hne h.symm)]
      rw [show alookup (e :: rest) k2 = (if e.1 = k2 then some e.2 else alookup rest k2) from rfl]
      rw [if_neg (by rw [hk]; exact fun h => hne h.symm)]
      exact ih
    · show alookup ((if e.1 = k then (k, v) else e) :: aset rest k v) k2 = _
      rw [if_neg hk]
      rw [show alookup (e :: aset rest k v) k2 =
        (if e.1 = k2 then some e.2 else alookup (aset rest k v) k2) from rfl]
      rw [show alookup (e :: rest) k2 = (if e.1 = k2 then some e.2 else alookup rest k2) from rfl]
      by_cases h2 : e.1 = k2
      · rw [if_pos h2, if_pos h2]
      · rw [if_neg h2, if_neg h2]
        exact ih

theorem alookup_filter_self (l : List (String × Entry)) (n : String) :
    alookup (l.filter (fun e => e.1 ≠ n)) n = none := by
  induction l with
  | nil => rfl
  | cons e rest ih =>
    by_cases hk : e.1 = n
    · rw [List.filter_cons, if_neg (by simp [hk])]
      exact ih
    · rw [List.filter_cons, if_pos (by simp [hk])]
      rw [show alookup (e :: List.filter _ rest) n =
        (if e.1 = n then some e.2 else alookup (rest.filter (fun e => e.1 ≠ n)) n) from rfl]
      rw [if_neg hk]
      exact ih

theorem alookup_filter_other {n k : String} (hne : k ≠ n) (l : List (String × Entry)) :
    alookup (l.filter (fun e => e.1 ≠ n)) k = alookup l k := by
  induction l with
  | nil => rfl
  | cons e rest ih =>
    by_cases hk : e.1 = n
    · rw [List.filter_cons, if_neg (by simp [hk])]
      rw [show alookup (e :: rest) k = (if e.1 = k then some e.2 else alookup rest k) from rfl]
      rw [if_neg (by rw [hk]; exact fun h => hne h.symm)]
      exact ih
    · rw [List.filter_cons, if_pos (by simp [hk])]
      rw [show alookup (e :: List.filter _ rest) k =
        (if e.1 = k then some e.2 else alookup (rest.filter (fun e => e.1 ≠ n)) k) from rfl]
      rw [show alookup (e :: rest) k = (if e.1 = k then some e.2 else alookup rest k) from rfl]
      by_cases h2 : e.1 = k
      · rw [if_pos h2, if_pos h2]
      · rw [if_neg h2, if_neg h2]
        exact ih

theorem isVirtualDir_lookupN {fs : FS} {n : String} (h : isVirtualDir n = true) :
    lookupN fs n = some (.dir 493) := by
  unfold lookupN
  rw [if_pos h]

theorem openForRead_readsAs {fs : FS} {p c : String}
    (h : openForRead fs p = .readsAs c) :
    p ≠ "" ∧ isVirtualDir (normPath p) = false ∧
      ∃ md, alookup fs.entries (normPath p) = some (.file c md) := by
  unfold openForRead at h
  by_cases hp : p = ""
  · rw [if_pos hp] at h; exact absurd h (by simp)
  · rw [if_neg hp] at h
    refine ⟨hp, ?_, ?_⟩
    · by_cases hv : isVirtualDir (normPath p) = true
      · rw [show lookupEntry fs p = lookupN fs (normPath p) from rfl,
          isVirtualDir_lookupN hv] at h
        exact absurd h (by simp)
      · simpa using hv
    · cases he : lookupEntry fs p with
      | none => rw [he] at h; exact absurd h (by simp)
      | some e =>
        cases e with
        | file c2 md =>
          rw [he] at h
          simp only [OpenResult.readsAs.injEq] at h
          subst h
          unfold lookupEntry lookupN at he
          by_cases hv : isVirtualDir (normPath p) = true
          · rw [if_pos hv] at he; exact absurd he (by simp)
          · rw [if_neg (by simp [hv])] at he
            exact ⟨md, he⟩
        | dir md => rw [he] at h; exact absurd h (by simp)

theorem openWriteSys_ok {fs fs2 : FS} {p : String}
    (h : openWriteSys fs p = .ok fs2) :
    p ≠ "" ∧ isVirtualDir (normPath p) = false ∧
      (∃ md, alookup fs2.entries (normPath p) = some (.file "" md)) ∧
      fs2.writeErr = fs.writeErr ∧ fs2.unlinkBlocked = fs.unlinkBlocked ∧
      (∀ key, key ≠ normPath p → alookup fs2.entries key = alookup fs.entries key) := by
  unfold openWriteSys at h
  by_cases hp : p = ""
  · rw [if_pos hp] at h; exact absurd h (by simp)
  · rw [if_neg hp] at h
    by_cases hb : fs.writeBlocked.contains (normPath p) = true
    · rw [if_pos hb] at h; exact absurd h (by simp)
    · rw [if_neg hb] at h
      refine ⟨hp, ?_, ?_⟩
      · by_cases hv : isVirtualDir (normPath p) = true
        · rw [isVirtualDir_lookupN hv] at h
          exact absurd h (by simp)
        · simpa using hv
      · cases he : lookupN fs (normPath p) with
        | none =>
          rw [he] at h
          by_cases hpar : parentOk fs p = true
          · rw [if_pos hpar, Except.ok.injEq] at h
            subst h
            have hv : isVirtualDir (normPath p) = false := by
              by_cases hv2 : isVirtualDir (normPath p) = true
              · rw [isVirtualDir_lookupN hv2] at he; exact absurd he (by simp)
              · simpa using hv2
            refine ⟨⟨420, ?_⟩, rfl, rfl, ?_⟩
            · rw [show ({ fs with entries := (normPath p, Entry.file "" 420) :: fs.entries } : FS).entries
                = (normPath p, Entry.file "" 420) :: fs.entries from rfl]
              rw [alookup_cons, if_pos rfl]
            · intro key hk
              rw [show ({ fs with entries := (normPath p, Entry.file "" 420) :: fs.entries } : FS).entries
                = (normPath p, Entry.file "" 420) :: fs.entries from rfl]
              rw [alookup_cons, if_neg (fun h2 => hk h2.symm)]
          · rw [if_neg hpar] at h; exact absurd h (by simp)
        | some e =>
          cases e with
          | file c0 md =>
            rw [he] at h
            simp only [Except.ok.injEq] at h
            subst h
            have halook : alookup fs.entries (normPath p) = some (.file c0 md) := by
              unfold lookupN at he
              by_cases hv : isVirtualDir (normPath p) = true
              · rw [if_pos hv] at he; exact absurd he (by simp)
              · rw [if_neg (by simp [hv])] at he; exact he
            refine ⟨⟨md, ?_⟩, rfl, rfl, ?_⟩
            · exact alookup_aset_self halook _
            · intro key hk
              exact alookup_aset_other hk _
          | dir md => rw [he] at h; exact absurd h (by simp)

/-- Claim C4: when a two-operand mv hits the cross-device (EXDEV) condition,
    it falls back to copying the source to the destination and unlinking the
    original.  If the copy succeeds but unlinking fails, the result is status
    1 with the distinct "copied but failed to remove original" message (and
    the destination holds the source's bytes); if unlinking succeeds the move
    completes with status 0, the destination holding the source's bytes and
    the source gone. -/
theorem claim_C4_mv (fs fs2 : FS) (src dst c : String)
    (hsrc : openForRead fs src = .readsAs c)
    (hx : fs.crossDev = true)
    (hdir : isDirIn fs dst = false)
    (hw : openWriteSys fs dst = .ok fs2)
    (hwe : fs.writeErr = [])
    (hne : normPath dst ≠ normPath src) :
    (fs.unlinkBlocked.contains (normPath src) = true →
      (mvCommand fs [src, dst]).2 =
          ⟨1, "", "mv: copied but failed to remove original '" ++ src ++ "'"⟩ ∧
        ∃ md, lookupN (mvCommand fs [src, dst]).1 (normPath dst) = some (.file c md)) ∧
    (fs.unlinkBlocked.contains (normPath src) = false →
      (mvCommand fs [src, dst]).2 = ⟨0, "", ""⟩ ∧
        (∃ md, lookupN (mvCommand fs [src, dst]).1 (normPath dst) = some (.file c md)) ∧
        lookupN (mvCommand fs [src, dst]).1 (normPath src) = none) := by
  obtain ⟨hsrcne, hsrcvirt, m0, hsrclook⟩ := openForRead_readsAs hsrc
  obtain ⟨hdstne, hdstvirt, ⟨mdw, hdstlook⟩, hwerr, hwub, hwother⟩ := openWriteSys_ok hw
  have hsrclookN : lookupEntry fs src = some (.file c m0) := by
    show lookupN fs (normPath src) = some (.file c m0)
    unfold lookupN
    rw [if_neg (by simp [hsrcvirt]), hsrclook]
  have hrename : renameSys fs src dst = (fs, some .EXDEV) := by
    unfold renameSys
    rw [if_neg (by simp [hsrcne, hdstne]), hsrclookN]
    simp only [hx, if_true, ite_true]
  -- the fallback copy
  have hwrite : writeContentSys fs2 dst c =
      some { fs2 with entries := aset fs2.entries (normPath dst) (.file c mdw) } := by
    unfold writeContentSys
    rw [if_neg (by rw [hwerr, hwe]; simp), hdstlook]
  set fs3 : FS := { fs2 with entries := aset fs2.entries (normPath dst) (.file c mdw) } with hfs3
  have hfs3ub : fs3.unlinkBlocked = fs.unlinkBlocked := by rw [hfs3]; exact hwub
  have hfs3dst : alookup fs3.entries (normPath dst) = some (.file c mdw) := by
    rw [hfs3]
    exact alookup_aset_self hdstlook _
  have hfs3src : alookup fs3.entries (normPath src) = some (.file c m0) := by
    rw [hfs3]
    show alookup (aset fs2.entries (normPath dst) (Entry.file c mdw)) (normPath src) =
      some (.file c m0)
    rw [alookup_aset_other (fun h => hne h.symm)]
    rw [hwother (normPath src) (fun h => hne h.symm)]
    exact hsrclook
  have hcmd : mvCommand fs [src, dst] =
      (match unlinkSys fs3 src with
       | (fs4, some _) =>
         (fs4, ⟨1, "", "mv: copied but failed to remove original '" ++ src ++ "'"⟩)
       | (fs4, none) => (fs4, ⟨0, "", ""⟩)) := by
    unfold mvCommand
    rw [if_neg (by simp)]
    simp only [List.headD, List.drop, hdir, Bool.false_eq_true, if_false, ite_false]
    simp only [hrename, eq_self_iff_true, if_true, hsrc, hw, hwrite]
  constructor
  · intro hb
    have hunlink : unlinkSys fs3 src = (fs3, some .EACCES) := by
      unfold unlinkSys
      rw [if_neg hsrcne, if_pos (by rw [hfs3ub]; exact hb)]
    rw [hcmd, hunlink]
    refine ⟨rfl, mdw, ?_⟩
    show lookupN fs3 (normPath dst) = some (.file c mdw)
    unfold lookupN
    rw [if_neg (by simp [hdstvirt]), hfs3dst]
  · intro hb
    have hsrclook3 : lookupEntry fs3 src = some (.file c m0) := by
      show lookupN fs3 (normPath src) = some (.file c m0)
      unfold lookupN
      rw [if_neg (by simp [hsrcvirt]), hfs3src]
    have hunlink : unlinkSys fs3 src =
        ({ fs3 with entries := fs3.entries.filter (fun e => e.1 ≠ normPath src) }, none) := by
      unfold unlinkSys
      rw [if_neg hsrcne, if_neg (by rw [hfs3ub, hb]; simp), hsrclook3]
    rw [hcmd, hunlink]
    refine ⟨rfl, ⟨mdw, ?_⟩, ?_⟩
    · show lookupN _ (normPath dst) = some (.file c mdw)
      unfold lookupN
      rw [if_neg (by simp [hdstvirt])]
      show alookup (fs3.entries.filter (fun e => e.1 ≠ normPath src)) (normPath dst) =
        some (.file c mdw)
      rw [alookup_filter_other hne, hfs3dst]
    · show lookupN _ (normPath src) = none
      unfold lookupN
      rw [if_neg (by simp [hsrcvirt])]
      exact alookup_filter_self _ _

theorem claim_C4_mv_witness :
    (mvCommand
        { entries := [("src", Entry.file "data" 420)],
          crossDev := true,
          unlinkBlocked := ["src"] }
        ["src", "dst"]).2 =
      ⟨1, "", "mv: copied but failed to remove original '" ++ "src" ++ "'"⟩ :=
  ((claim_C4_mv
      { entries := [("src", Entry.file "data" 420)],
        crossDev := true,
        unlinkBlocked := ["src"] }
      { entries := [("dst", Entry.file "" 420), ("src", Entry.file "data" 420)],
        crossDev := true,
        unlinkBlocked := ["src"] }
      "src" "dst" "data" (by decide) (by decide) (by decide) rfl (by decide)
      (by decide)).1 (by decide)).1

/-! ## Claims C1 and C8: the grep scan -/

theorem grepRenderedOfLines_nil (search : String → Option String) (o : GrepOpts)
    (mf : Bool) (file : String) :
    grepRenderedOfLines search o mf file [] = [] := rfl

theorem grepRenderedOfLines_cons (search : String → Option String) (o : GrepOpts)
    (mf : Bool) (file : String) (ln : Nat) (line : String) (rest : List (Nat × String)) :
    grepRenderedOfLines search o mf file ((ln, line) :: rest) =
      (if (grepMatchedOf search o line).1 then
        grepRender o mf file ln line (grepMatchedOf search o line).2 ::
          grepRenderedOfLines search o mf file rest
       else grepRenderedOfLines search o mf file rest) := by
  unfold grepRenderedOfLines
  rw [List.filter_cons]
  by_cases h : (grepMatchedOf search o line).1 = true
  · rw [if_pos (by simpa using h), if_pos h, List.map_cons]
  · rw [if_neg (by simpa using h), if_neg h]

theorem grepLinesGo_cons (search : String → Option String) (o : GrepOpts) (mf : Bool)
    (file : String) (ln : Nat) (line : String) (rest : List (Nat × String))
    (t : Nat) (out : String) :
    grepLinesGo search o mf file ((ln, line) :: rest) t out =
      (if (grepMatchedOf search o line).1 then
         (if o.m ≠ -1 ∧ o.m < ((t + 1 : Nat) : Int) then
            .error (if o.c then (⟨0, toString (t + 1), ""⟩ : CommandResult)
              else ⟨0, popNl out, ""⟩)
          else grepLinesGo search o mf file rest (t + 1)
            (if o.c then out
             else out ++ grepRender o mf file ln line (grepMatchedOf search o line).2 ++ "\n"))
       else grepLinesGo search o mf file rest t out) := by
  show (match grepMatchedOf search o line with
    | (matched, mt) =>
      if matched then
        (if o.m ≠ -1 ∧ o.m < ((t + 1 : Nat) : Int) then
          Except.error (if o.c then (⟨0, toString (t + 1), ""⟩ : CommandResult)
            else (⟨0, popNl out, ""⟩ : CommandResult))
        else grepLinesGo search o mf file rest (t + 1)
          (if o.c then out else out ++ grepRender o mf file ln line mt ++ "\n"))
      else grepLinesGo search o mf file rest t out) = _
  cases hm : grepMatchedOf search o line with
  | mk matched mt => rfl

theorem grepLinesGo_complete (search : String → Option String) (o : GrepOpts) (mf : Bool)
    (file : String) (hc : o.c = false) :
    ∀ (lines : List (Nat × String)) (t : Nat) (out : String),
    (o.m = -1 ∨ ((t : Int) + (grepRenderedOfLines search o mf file lines).length ≤ o.m) ∨
      grepRenderedOfLines search o mf file lines = []) →
    grepLinesGo search o mf file lines t out =
      .ok (t + (grepRenderedOfLines search o mf file lines).length,
           out ++ outJoin (grepRenderedOfLines search o mf file lines)) := by
  intro lines
  induction lines with
  | nil =>
    intro t out hm
    rw [grepRenderedOfLines_nil]
    show Except.ok (t, out) = Except.ok (t + 0, out ++ "")
    rw [sappend_empty, Nat.add_zero]
  | cons p rest ih =>
    obtain ⟨ln, line⟩ := p
    intro t out hm
    rw [grepLinesGo_cons]
    rw [grepRenderedOfLines_cons] at hm ⊢
    by_cases hmatch : (grepMatchedOf search o line).1 = true
    · simp only [hmatch, eq_self_iff_true, if_true] at hm ⊢
      have hnl : ¬ (o.m ≠ -1 ∧ o.m < ((t + 1 : Nat) : Int)) := by
        rcases hm with hm | hm | hm
        · intro hcon; exact hcon.1 hm
        · intro hcon
          rw [List.length_cons] at hm
          have : ((t : Int) + 1 : Int) ≤ o.m := by push_cast at hm ⊢; omega
          have : ((t + 1 : Nat) : Int) ≤ o.m := by push_cast; push_cast at this; omega
          omega
        · exact absurd hm (by simp)
      rw [if_neg hnl, hc]
      simp only [Bool.false_eq_true, if_false, ite_false]
      have hm2 : o.m = -1 ∨
          (((t + 1 : Nat) : Int) + (grepRenderedOfLines search o mf file rest).length ≤ o.m) ∨
          grepRenderedOfLines search o mf file rest = [] := by
        rcases hm with hm | hm | hm
        · exact Or.inl hm
        · refine Or.inr (Or.inl ?_)
          rw [List.length_cons] at hm
          push_cast at hm ⊢
          omega
        · exact absurd hm (by simp)
      rw [ih (t + 1) _ hm2]
      rw [List.length_cons]
      show Except.ok _ = Except.ok _
      rw [Except.ok.injEq, Prod.mk.injEq]
      constructor
      · omega
      · simp only [outJoin, sappend_assoc]
    · rw [Bool.not_eq_true] at hmatch
      simp only [hmatch, Bool.false_eq_true, if_false, ite_false] at hm ⊢
      exact ih t out hm

theorem grepLinesGo_limit (search : String → Option String) (o : GrepOpts) (mf : Bool)
    (file : String) (hc : o.c = false) (h0 : 0 ≤ o.m) :
    ∀ (lines : List (Nat × String)) (t : Nat) (out : String),
    ((t : Int) ≤ o.m) →
    (o.m < (t : Int) + (grepRenderedOfLines search o mf file lines).length) →
    grepLinesGo search o mf file lines t out =
      .error ⟨0, popNl (out ++ outJoin
        ((grepRenderedOfLines search o mf file lines).take (o.m.toNat - t))), ""⟩ := by
  intro lines
  induction lines with
  | nil =>
    intro t out hlow hhigh
    rw [grepRenderedOfLines_nil] at hhigh
    exfalso
    simp only [List.length_nil] at hhigh
    omega
  | cons p rest ih =>
    obtain ⟨ln, line⟩ := p
    intro t out hlow hhigh
    rw [grepLinesGo_cons]
    rw [grepRenderedOfLines_cons] at hhigh ⊢
    by_cases hmatch : (grepMatchedOf search o line).1 = true
    · simp only [hmatch, eq_self_iff_true, if_true] at hhigh ⊢
      by_cases hhit : o.m < ((t + 1 : Nat) : Int)
      · rw [if_pos ⟨by omega, hhit⟩, hc]
        simp only [Bool.false_eq_true, if_false, ite_false]
        have htake : o.m.toNat - t = 0 := by
          push_cast at hhit
          omega
        rw [htake, List.take_zero]
        rw [show outJoin ([] : List String) = "" from rfl, sappend_empty]
      · rw [if_neg (fun hcon => hhit hcon.2), hc]
        simp only [Bool.false_eq_true, if_false, ite_false]
        have hlow2 : ((t + 1 : Nat) : Int) ≤ o.m := by push_cast; push_cast at hhit; omega
        have hhigh2 : o.m < ((t + 1 : Nat) : Int) +
            (grepRenderedOfLines search o mf file rest).length := by
          rw [List.length_cons] at hhigh
          push_cast at hhigh ⊢
          omega
        rw [ih (t + 1) _ hlow2 hhigh2]
        rw [Except.error.injEq, CommandResult.mk.injEq]
        refine ⟨rfl, ?_, rfl⟩
        have hsub : o.m.toNat - t = (o.m.toNat - (t + 1)) + 1 := by
          push_cast at hhit
          omega
        rw [hsub, List.take_succ_cons]
        simp only [outJoin, sappend_assoc]
    · rw [Bool.not_eq_true] at hmatch
      simp only [hmatch, Bool.false_eq_true, if_false, ite_false] at hhigh ⊢
      exact ih t out hlow hhigh

theorem grepRenderedAll_nil (search : String → Option String) (o : GrepOpts)
    (mf : Bool) (fs : FS) : grepRenderedAll search o mf fs [] = [] := rfl

theorem grepRenderedAll_cons (search : String → Option String) (o : GrepOpts)
    (mf : Bool) (fs : FS) (f : String) (rest : List String) :
    grepRenderedAll search o mf fs (f :: rest) =
      grepRenderedOfFile search o mf fs f ++ grepRenderedAll search o mf fs rest := by
  unfold grepRenderedAll
  rw [List.map_cons, List.flatten_cons]

theorem grepFilesGo_complete (search : String → Option String) (o : GrepOpts) (mf : Bool)
    (fs : FS) (hc : o.c = false) :
    ∀ (files : List String) (t : Nat) (out : String),
    (∀ f ∈ files, openForRead fs f ≠ .notFound) →
    (o.m = -1 ∨ ((t : Int) + (grepRenderedAll search o mf fs files).length ≤ o.m) ∨
      grepRenderedAll search o mf fs files = []) →
    grepFilesGo search o mf fs files t out =
      .ok (t + (grepRenderedAll search o mf fs files).length,
           out ++ outJoin (grepRenderedAll search o mf fs files)) := by
  intro files
  induction files with
  | nil =>
    intro t out hopen hm
    rw [grepRenderedAll_nil]
    show Except.ok (t, out) = Except.ok (t + 0, out ++ "")
    rw [sappend_empty, Nat.add_zero]
  | cons f rest ih =>
    intro t out hopen hm
    rw [grepRenderedAll_cons] at hm ⊢
    have hof : openForRead fs f ≠ .notFound := hopen f (by simp)
    show (match grepFileStep search o mf fs f t out with
      | Except.error r => Except.error r
      | Except.ok (t2, o2) => grepFilesGo search o mf fs rest t2 o2) = _
    unfold grepFileStep
    cases hfr : openForRead fs f with
    | notFound => exact absurd hfr hof
    | readErr =>
      have hRf : grepRenderedOfFile search o mf fs f = [] := by
        unfold grepRenderedOfFile
        rw [hfr]
      rw [hRf] at hm ⊢
      rw [List.nil_append] at hm ⊢
      exact ih t out (fun g hg => hopen g (by simp [hg])) hm
    | readsAs content =>
      have hRf : grepRenderedOfFile search o mf fs f =
          grepRenderedOfLines search o mf f (List.enumFrom 1 (grepContentLines content)) := by
        unfold grepRenderedOfFile
        rw [hfr]
      rw [hRf] at hm ⊢
      have hmf : o.m = -1 ∨
          ((t : Int) + (grepRenderedOfLines search o mf f
            (List.enumFrom 1 (grepContentLines content))).length ≤ o.m) ∨
          grepRenderedOfLines search o mf f (List.enumFrom 1 (grepContentLines content)) = [] := by
        rcases hm with hm | hm | hm
        · exact Or.inl hm
        · refine Or.inr (Or.inl ?_)
          rw [List.length_append] at hm
          push_cast at hm ⊢
          omega
        · exact Or.inr (Or.inr (List.append_eq_nil.mp hm).1)
      show (match grepLinesGo search o mf f (List.enumFrom 1 (grepContentLines content)) t out with
        | Except.error r => Except.error r
        | Except.ok (t2, o2) => grepFilesGo search o mf fs rest t2 o2) = _
      rw [grepLinesGo_complete search o mf f hc _ t out hmf]
      show grepFilesGo search o mf fs rest
          (t + (grepRenderedOfLines search o mf f
            (List.enumFrom 1 (grepContentLines content))).length)
          (out ++ outJoin (grepRenderedOfLines search o mf f
            (List.enumFrom 1 (grepContentLines content)))) = _
      have hm2 : o.m = -1 ∨
          (((t + (grepRenderedOfLines search o mf f
              (List.enumFrom 1 (grepContentLines content))).length : Nat) : Int) +
            (grepRenderedAll search o mf fs rest).length ≤ o.m) ∨
          grepRenderedAll search o mf fs rest = [] := by
        rcases hm with hm | hm | hm
        · exact Or.inl hm
        · refine Or.inr (Or.inl ?_)
          rw [List.length_append] at hm
          push_cast at hm ⊢
          omega
        · exact Or.inr (Or.inr (List.append_eq_nil.mp hm).2)
      rw [ih _ _ (fun g hg => hopen g (by simp [hg])) hm2]
      rw [Except.ok.injEq, Prod.mk.injEq]
      constructor
      · rw [List.length_append]
        omega
      · rw [outJoin_append, sappend_assoc]

theorem grepFilesGo_limit (search : String → Option String) (o : GrepOpts) (mf : Bool)
    (fs : FS) (hc : o.c = false) (h0 : 0 ≤ o.m) :
    ∀ (files : List String) (t : Nat) (out : String),
    (∀ f ∈ files, openForRead fs f ≠ .notFound) →
    ((t : Int) ≤ o.m) →
    (o.m < (t : Int) + (grepRenderedAll search o mf fs files).length) →
    grepFilesGo search o mf fs files t out =
      .error ⟨0, popNl (out ++ outJoin
        ((grepRenderedAll search o mf fs files).take (o.m.toNat - t))), ""⟩ := by
  intro files
  induction files with
  | nil =>
    intro t out hopen hlow hhigh
    rw [grepRenderedAll_nil] at hhigh
    exfalso
    simp only [List.length_nil] at hhigh
    omega
  | cons f rest ih =>
    intro t out hopen hlow hhigh
    rw [grepRenderedAll_cons] at hhigh ⊢
    have hof : openForRead fs f ≠ .notFound := hopen f (by simp)
    show (match grepFileStep search o mf fs f t out with
      | Except.error r => Except.error r
      | Except.ok (t2, o2) => grepFilesGo search o mf fs rest t2 o2) = _
    unfold grepFileStep
    cases hfr : openForRead fs f with
    | notFound => exact absurd hfr hof
    | readErr =>
      have hRf : grepRenderedOfFile search o mf fs f = [] := by
        unfold grepRenderedOfFile
        rw [hfr]
      rw [hRf] at hhigh ⊢
      rw [List.nil_append] at hhigh ⊢
      exact ih t out (fun g hg => hopen g (by simp [hg])) hlow hhigh
    | readsAs content =>
      have hRf : grepRenderedOfFile search o mf fs f =
          grepRenderedOfLines search o mf f (List.enumFrom 1 (grepContentLines content)) := by
        unfold grepRenderedOfFile
        rw [hfr]
      rw [hRf] at hhigh ⊢
      show (match grepLinesGo search o mf f (List.enumFrom 1 (grepContentLines content)) t out with
        | Except.error r => Except.error r
        | Except.ok (t2, o2) => grepFilesGo search o mf fs rest t2 o2) = _
      by_cases hcross : ((t : Int) +
          (grepRenderedOfLines search o mf f
            (List.enumFrom 1 (grepContentLines content))).length ≤ o.m)
      · rw [grepLinesGo_complete search o mf f hc _ t out (Or.inr (Or.inl hcross))]
        show grepFilesGo search o mf fs rest
            (t + (grepRenderedOfLines search o mf f
              (List.enumFrom 1 (grepContentLines content))).length)
            (out ++ outJoin (grepRenderedOfLines search o mf f
              (List.enumFrom 1 (grepContentLines content)))) = _
        rw [ih _ _ (fun g hg => hopen g (by simp [hg]))
          (by push_cast; push_cast at hcross; omega)
          (by rw [List.length_append] at hhigh; push_cast; push_cast at hhigh hcross; omega)]
        rw [Except.error.injEq, CommandResult.mk.injEq]
        refine ⟨rfl, ?_, rfl⟩
        have hlen : (grepRenderedOfLines search o mf f
            (List.enumFrom 1 (grepContentLines content))).length ≤ o.m.toNat - t := by
          push_cast at hcross
          omega
        rw [List.take_append_eq_append_take,
          List.take_of_length_le hlen,
          show o.m.toNat - t - (grepRenderedOfLines search o mf f
            (List.enumFrom 1 (grepContentLines content))).length =
            o.m.toNat - (t + (grepRenderedOfLines search o mf f
              (List.enumFrom 1 (grepContentLines content))).length) by omega]
        rw [outJoin_append, sappend_assoc]
      · rw [grepLinesGo_limit search o mf f hc h0 _ t out hlow (by push_cast; push_cast at hcross; omega)]
        rw [Except.error.injEq, CommandResult.mk.injEq]
        refine ⟨rfl, ?_, rfl⟩
        have hlen : o.m.toNat - t ≤ (grepRenderedOfLines search o mf f
            (List.enumFrom 1 (grepContentLines content))).length := by
          push_cast at hcross
          omega
        rw [List.take_append_eq_append_take,
          show o.m.toNat - t - (grepRenderedOfLines search o mf f
            (List.enumFrom 1 (grepContentLines content))).length = 0 by omega,
          List.take_zero, List.append_nil]

/-- Claim C1 (amended): with `-m` as the (single) active flag set to a value
    `m ≥ 0` and more than `m` matching lines across the given files, grep
    returns status 0 and its output is exactly the first `m` rendered matching
    lines joined by newlines.  The count-only flag `-c` cannot be combined
    with `-m`: passing both is rejected with the single-flag error, so no
    count is ever reported for a limited scan (see the counterexample). -/
theorem claim_C1_grep (eng : RegexEngine) (fs : FS) (args : List String)
    (pat : String) (files : List String) (m : Nat) (search : String → Option String)
    (hparse : grepParse args 0 {} =
      .ok (⟨false, false, false, false, false, false, (m : Int)⟩, pat :: files))
    (hlen : 2 ≤ args.length)
    (hfiles : files ≠ [])
    (hcomp : eng.compile pat false = some search)
    (hopen : ∀ f ∈ files, openForRead fs f ≠ .notFound)
    (hmore : m < (grepRenderedAll search
      ⟨false, false, false, false, false, false, (m : Int)⟩
      (decide (1 < files.length)) fs files).length) :
    grepCommand eng fs args =
      some ⟨0, joinLines ((grepRenderedAll search
        ⟨false, false, false, false, false, false, (m : Int)⟩
        (decide (1 < files.length)) fs files).take m), ""⟩ := by
  unfold grepCommand
  rw [if_neg (by omega : ¬ args.length < 2), hparse]
  show (if files = [] then some ⟨1, "", "grep: missing file operand"⟩
    else match eng.compile pat false with
      | none => some ⟨1, "", "grep: invalid regex"⟩
      | some search2 =>
        match grepFilesGo search2
            (⟨false, false, false, false, false, false, (m : Int)⟩ : GrepOpts)
            (decide (1 < files.length)) fs files 0 "" with
        | Except.error r => some r
        | Except.ok (total, out) =>
          if total = 0 then some ⟨1, "", ""⟩
          else some ⟨0, stripTrailingNewline out, ""⟩) = _
  rw [if_neg hfiles, hcomp]
  show (match grepFilesGo search
      (⟨false, false, false, false, false, false, (m : Int)⟩ : GrepOpts)
      (decide (1 < files.length)) fs files 0 "" with
    | Except.error r => some r
    | Except.ok (total, out) =>
      if total = 0 then some ⟨1, "", ""⟩
      else some ⟨0, stripTrailingNewline out, ""⟩) = _
  rw [grepFilesGo_limit search
    (⟨false, false, false, false, false, false, (m : Int)⟩ : GrepOpts)
    (decide (1 < files.length)) fs rfl
    (by exact Int.natCast_nonneg m) files 0 ""
    hopen (by simp)
    (by push_cast; omega)]
  show some (⟨0, popNl ("" ++ outJoin ((grepRenderedAll search
      ⟨false, false, false, false, false, false, (m : Int)⟩
      (decide (1 < files.length)) fs files).take (((m : Int)).toNat - 0))), ""⟩ : CommandResult) = _
  rw [sempty_append, Nat.sub_zero, Int.toNat_natCast, popNl_outJoin]

theorem claim_C1_grep_witness :
    grepCommand litEngine
        { entries := [("f", Entry.file "foo one\nbar\nfoo two\nfoo three\n" 420)] }
        ["-m", "2", "foo", "f"] =
      some ⟨0, joinLines ((grepRenderedAll
        (fun line => if decide ("foo".data <:+: line.data) then some "foo" else none)
        ⟨false, false, false, false, false, false, ((2 : Nat) : Int)⟩
        (decide (1 < (["f"] : List String).length))
        { entries := [("f", Entry.file "foo one\nbar\nfoo two\nfoo three\n" 420)] }
        ["f"]).take 2), ""⟩ :=
  claim_C1_grep litEngine
    { entries := [("f", Entry.file "foo one\nbar\nfoo two\nfoo three\n" 420)] }
    ["-m", "2", "foo", "f"] "foo" ["f"] 2
    (fun line => if decide ("foo".data <:+: line.data) then some "foo" else none)
    rfl (by decide) (by decide) rfl (by decide) (by decide)

/-- Claim C1 counterexample: combining `-c` with `-m` is rejected by the
    single-flag rule, so grep never reports the limited count the claim
    promises — on a file with three matching lines and `-m 2 -c` the result is
    the flag error, not the count "2". -/
theorem claim_C1_grep_counterexample :
    grepCommand litEngine
        { entries := [("f", Entry.file "foo one\nbar\nfoo two\nfoo three\n" 420)] }
        ["-m", "2", "-c", "foo", "f"] =
      some ⟨1, "", "grep: only one flag can be used at a time"⟩ ∧
    grepCommand litEngine
        { entries := [("f", Entry.file "foo one\nbar\nfoo two\nfoo three\n" 420)] }
        ["-m", "2", "-c", "foo", "f"] ≠ some ⟨0, "2", ""⟩ := by
  constructor
  · rfl
  · decide

/-- Claim C8: a grep invocation with a valid pattern and valid files, with the
    count-only flag not active, that matches zero lines returns exactly status
    1 with empty output and empty error. -/
theorem claim_C8_grep (eng : RegexEngine) (fs : FS) (args : List String)
    (o : GrepOpts) (pat : String) (files : List String) (search : String → Option String)
    (hparse : grepParse args 0 {} = .ok (o, pat :: files))
    (hlen : 2 ≤ args.length)
    (hc : o.c = false)
    (hfiles : files ≠ [])
    (hcomp : eng.compile (if o.w then "\\b" ++ pat ++ "\\b" else pat) o.i = some search)
    (hopen : ∀ f ∈ files, openForRead fs f ≠ .notFound)
    (hzero : grepRenderedAll search o (decide (1 < files.length)) fs files = []) :
    grepCommand eng fs args = some ⟨1, "", ""⟩ := by
  unfold grepCommand
  rw [if_neg (by omega : ¬ args.length < 2), hparse]
  show (if files = [] then some ⟨1, "", "grep: missing file operand"⟩
    else match eng.compile (if o.w then "\\b" ++ pat ++ "\\b" else pat) o.i with
      | none => some ⟨1, "", "grep: invalid regex"⟩
      | some search2 =>
        match grepFilesGo search2 o (decide (1 < files.length)) fs files 0 "" with
        | Except.error r => some r
        | Except.ok (total, out) =>
          if o.c = true then some ⟨0, toString total, ""⟩
          else if total = 0 then some ⟨1, "", ""⟩
          else some ⟨0, stripTrailingNewline out, ""⟩) = _
  rw [if_neg hfiles, hcomp]
  show (match grepFilesGo search o (decide (1 < files.length)) fs files 0 "" with
    | Except.error r => some r
    | Except.ok (total, out) =>
      if o.c = true then some ⟨0, toString total, ""⟩
      else if total = 0 then some ⟨1, "", ""⟩
      else some ⟨0, stripTrailingNewline out, ""⟩) = _
  rw [grepFilesGo_complete search o (decide (1 < files.length)) fs hc files 0 ""
    hopen (Or.inr (Or.inr hzero))]
  rw [hzero]
  simp [hc]

theorem claim_C8_grep_witness :
    grepCommand litEngine
        { entries := [("f", Entry.file "alpha\nbeta\n" 420)] } ["zzz", "f"] =
      some ⟨1, "", ""⟩ :=
  claim_C8_grep litEngine { entries := [("f", Entry.file "alpha\nbeta\n" 420)] }
    ["zzz", "f"] {} "zzz" ["f"]
    (fun line => if decide ("zzz".data <:+: line.data) then some "zzz" else none)
    rfl (by decide) rfl (by decide) rfl (by decide) (by decide)

/-! ## Claim C9: output/error channel discipline -/

theorem channelsOk_err (e : String) : resultChannelsOk ⟨1, "", e⟩ :=
  ⟨fun h => absurd h Nat.one_ne_zero, fun _ => rfl⟩

theorem channelsOk_out (s : String) : resultChannelsOk ⟨0, s, ""⟩ :=
  ⟨fun _ => rfl, fun h => absurd h Nat.zero_ne_one⟩

theorem helpCommand_channels (args : List String) : resultChannelsOk (helpCommand args) := by
  simp only [helpCommand]
  split
  · exact channelsOk_err _
  · exact channelsOk_out _

theorem echoCommand_channels (args : List String) : resultChannelsOk (echoCommand args) :=
  channelsOk_out _

theorem pauseCommand_channels (args : List String) : resultChannelsOk (pauseCommand args) := by
  simp only [pauseCommand]
  split
  · exact channelsOk_err _
  · exact channelsOk_out _

theorem clrCommand_channels (args : List String) : resultChannelsOk (clrCommand args) := by
  simp only [clrCommand]
  split
  · exact channelsOk_err _
  · exact channelsOk_out _

theorem pwdCommand_channels (fs : FS) (args : List String) :
    resultChannelsOk (pwdCommand fs args) := by
  simp only [pwdCommand]
  repeat' split
  all_goals first
    | exact channelsOk_err _
    | exact channelsOk_out _

theorem environCommand_channels (fs : FS) (args : List String) :
    resultChannelsOk (environCommand fs args) := by
  simp only [environCommand]
  split
  · exact channelsOk_err _
  · exact channelsOk_out _

theorem quitCommand_channels (args : List String) (r : CommandResult)
    (h : quitCommand args = some r) : resultChannelsOk r := by
  simp only [quitCommand] at h
  split at h
  · rw [Option.some.injEq] at h
    rw [← h]
    exact channelsOk_err _
  · exact Option.noConfusion h

theorem cdCommand_channels (fs : FS) (args : List String) :
    resultChannelsOk (cdCommand fs args).2 := by
  simp only [cdCommand]
  repeat' split
  all_goals first
    | exact channelsOk_err _
    | exact channelsOk_out _

theorem touchCommand_channels (fs : FS) (args : List String) :
    resultChannelsOk (touchCommand fs args).2 := by
  simp only [touchCommand]
  repeat' split
  all_goals first
    | exact channelsOk_err _
    | exact channelsOk_out _

theorem catLoop_channels (fs : FS) :
    ∀ (l : List String) (out : String) (r : CommandResult),
      catLoop fs l out = .error r → resultChannelsOk r := by
  intro l
  induction l with
  | nil =>
    intro out r h
    simp only [catLoop] at h
    exact Except.noConfusion h
  | cons f rest ih =>
    intro out r h
    simp only [catLoop] at h
    split at h
    · rw [Except.error.injEq] at h
      rw [← h]
      exact channelsOk_err _
    · rw [Except.error.injEq] at h
      rw [← h]
      exact channelsOk_err _
    · exact ih _ _ h

theorem catCommand_channels (fs : FS) (args : List String) :
    resultChannelsOk (catCommand fs args) := by
  simp only [catCommand]
  split
  · exact channelsOk_err _
  · split
    · rename_i r0 heq
      exact catLoop_channels _ _ _ _ heq
    · exact channelsOk_out _

theorem chownLoop_channels (uid : Nat) :
    ∀ (l : List String) (fs fs2 : FS) (r : CommandResult),
      chownLoop fs uid l = (fs2, some r) → resultChannelsOk r := by
  intro l
  induction l with
  | nil =>
    intro fs fs2 r h
    simp only [chownLoop, Prod.mk.injEq] at h
    exact absurd h.2 (by simp)
  | cons f rest ih =>
    intro fs fs2 r h
    simp only [chownLoop] at h
    split at h
    · rw [Prod.mk.injEq, Option.some.injEq] at h
      rw [← h.2]
      exact channelsOk_err _
    · split at h
      · rw [Prod.mk.injEq, Option.some.injEq] at h
        rw [← h.2]
        exact channelsOk_err _
      · exact ih _ _ _ h

theorem chownCommand_channels (fs : FS) (args : List String) :
    resultChannelsOk (chownCommand fs args).2 := by
  simp only [chownCommand]
  split
  · exact channelsOk_err _
  · split
    · exact channelsOk_err _
    · split
      · exact channelsOk_err _
      · split
        · rename_i fs2 r0 heq
          exact chownLoop_channels _ _ _ _ _ heq
        · exact channelsOk_out _

theorem chmodCommand_channels (fs : FS) (args : List String) :
    resultChannelsOk (chmodCommand fs args).2 := by
  simp only [chmodCommand]
  repeat' split
  all_goals first
    | exact channelsOk_err _
    | exact channelsOk_out _

theorem lsClassify_channels :
    ∀ (l : List String) (sa aa ll : Bool) (ps : List String) (r : CommandResult),
      lsClassify l sa aa ll ps = .error r → resultChannelsOk r := by
  intro l
  induction l with
  | nil =>
    intro sa aa ll ps r h
    simp only [lsClassify] at h
    exact Except.noConfusion h
  | cons a rest ih =>
    intro sa aa ll ps r h
    simp only [lsClassify] at h
    split at h
    · exact ih _ _ _ _ _ h
    · split at h
      · exact ih _ _ _ _ _ h
      · split at h
        · exact ih _ _ _ _ _ h
        · split at h
          · rw [Except.error.injEq] at h
            rw [← h]
            exact channelsOk_err _
          · exact ih _ _ _ _ _ h

theorem lsDirEntries_channels (fs : FS) (tf : Nat → String)
    (sa aa ll : Bool) (p : String) :
    ∀ (names : List String) (out : String) (r : CommandResult),
      lsDirEntries fs tf sa aa ll p names out = .error r → resultChannelsOk r := by
  intro names
  induction names with
  | nil =>
    intro out r h
    simp only [lsDirEntries] at h
    exact Except.noConfusion h
  | cons name rest ih =>
    intro out r h
    simp only [lsDirEntries] at h
    split at h
    · exact ih _ _ h
    · split at h
      · exact ih _ _ h
      · split at h
        · split at h
          · rw [Except.error.injEq] at h
            rw [← h]
            exact channelsOk_err _
          · exact ih _ _ h
        · exact ih _ _ h

theorem lsPaths_channels (fs : FS) (tf : Nat → String) (sa aa ll mu : Bool) :
    ∀ (paths : List String) (out : String) (r : CommandResult),
      lsPaths fs tf sa aa ll mu paths out = .error r → resultChannelsOk r := by
  intro paths
  induction paths with
  | nil =>
    intro out r h
    simp only [lsPaths] at h
    exact Except.noConfusion h
  | cons p rest ih =>
    intro out r h
    simp only [lsPaths] at h
    split at h
    · rw [Except.error.injEq] at h
      rw [← h]
      exact channelsOk_err _
    · exact ih _ _ h
    · split at h
      · rw [Except.error.injEq] at h
        rw [← h]
        exact channelsOk_err _
      · split at h
        · rename_i r0 heq
          rw [Except.error.injEq] at h
          rw [← h]
          exact lsDirEntries_channels _ _ _ _ _ _ _ _ _ heq
        · exact ih _ _ h

theorem lsCommand_channels (fs : FS) (tf : Nat → String) (args : List String) :
    resultChannelsOk (lsCommand fs tf args) := by
  simp only [lsCommand]
  split
  · rename_i r0 heq
    exact lsClassify_channels _ _ _ _ _ _ heq
  · split
    · rename_i r0 heq2
      exact lsPaths_channels _ _ _ _ _ _ _ _ _ heq2
    · exact channelsOk_out _

theorem dirCommand_channels (fs : FS) (tf : Nat → String) (args : List String) :
    resultChannelsOk (dirCommand fs tf args) :=
  lsCommand_channels fs tf args

theorem removeChain_channels :
    ∀ (l : List String) (fs fs2 : FS) (r : CommandResult),
      removeChain fs l = (fs2, r) → resultChannelsOk r := by
  intro l
  induction l with
  | nil =>
    intro fs fs2 r h
    rw [removeChain_nil, Prod.mk.injEq] at h
    rw [← h.2]
    exact channelsOk_out _
  | cons q rest ih =>
    intro fs fs2 r h
    rw [removeChain_cons] at h
    split at h
    · rw [Prod.mk.injEq] at h
      rw [← h.2]
      exact channelsOk_err _
    · exact ih _ _ _ h

theorem rmdirUpward_channels (fs : FS) (p : String) :
    resultChannelsOk (rmdirUpward fs p).2 := by
  by_cases hp : p = ""
  · subst hp
    rw [rmdirUpward, if_pos rfl]
    exact channelsOk_out _
  · rw [rmdirUpward_eq_chain p.length fs p le_rfl hp]
    exact removeChain_channels _ _ _ _ rfl

theorem rmdirCommand_channels (fs : FS) (args : List String) :
    resultChannelsOk (rmdirCommand fs args).2 := by
  simp only [rmdirCommand]
  split
  · exact channelsOk_err _
  · split
    · split
      · split
        · exact channelsOk_err _
        · exact rmdirUpward_channels _ _
      · exact channelsOk_err _
    · split
      · exact channelsOk_err _
      · split
        · exact channelsOk_err _
        · exact channelsOk_out _

theorem mkdirFlags_channels :
    ∀ (l : List String) (b : Bool) (r : CommandResult),
      mkdirFlags l b = .error r → resultChannelsOk r := by
  intro l
  induction l with
  | nil =>
    intro b r h
    simp only [mkdirFlags] at h
    exact Except.noConfusion h
  | cons a rest ih =>
    intro b r h
    simp only [mkdirFlags] at h
    split at h
    · split at h
      · exact ih _ _ h
      · rw [Except.error.injEq] at h
        rw [← h]
        exact channelsOk_err _
    · exact Except.noConfusion h

theorem mkdirPLoop_channels :
    ∀ (cs : List Char) (fs fs2 : FS) (acc : List Char) (r : CommandResult),
      mkdirPLoop fs acc cs = (fs2, some r) → resultChannelsOk r := by
  intro cs
  induction cs with
  | nil =>
    intro fs fs2 acc r h
    simp only [mkdirPLoop, Prod.mk.injEq] at h
    exact absurd h.2 (by simp)
  | cons c rest ih =>
    intro fs fs2 acc r h
    simp only [mkdirPLoop] at h
    split at h
    · exact ih _ _ _ _ h
    · split at h
      · exact ih _ _ _ _ h
      · split at h
        · exact ih _ _ _ _ h
        · split at h
          · exact ih _ _ _ _ h
          · rw [Prod.mk.injEq, Option.some.injEq] at h
            rw [← h.2]
            exact channelsOk_err _

theorem mkdirPaths_channels :
    ∀ (paths : List String) (recurse : Bool) (fs fs2 : FS) (r : CommandResult),
      mkdirPaths fs recurse paths = (fs2, some r) → resultChannelsOk r := by
  intro paths
  induction paths with
  | nil =>
    intro recurse fs fs2 r h
    simp only [mkdirPaths, Prod.mk.injEq] at h
    exact absurd h.2 (by simp)
  | cons p rest ih =>
    intro recurse fs fs2 r h
    simp only [mkdirPaths] at h
    split at h
    · split at h
      · exact ih _ _ _ _ h
      · rename_i fsM rM heq
        rw [Prod.mk.injEq, Option.some.injEq] at h
        rw [← h.2]
        exact mkdirPLoop_channels _ _ _ _ _ heq
    · split at h
      · exact ih _ _ _ _ h
      · rw [Prod.mk.injEq, Option.some.injEq] at h
        rw [← h.2]
        exact channelsOk_err _

theorem mkdirCommand_channels (fs : FS) (args : List String) :
    resultChannelsOk (mkdirCommand fs args).2 := by
  simp only [mkdirCommand]
  split
  · exact channelsOk_err _
  · split
    · rename_i r0 heq
      exact mkdirFlags_channels _ _ _ heq
    · split
      · exact channelsOk_err _
      · split
        · exact channelsOk_out _
        · rename_i fs2 r0 heq2
          exact mkdirPaths_channels _ _ _ _ _ heq2

theorem cpLoop_channels (destIsDir : Bool) (dest : String) :
    ∀ (l : List String) (fs fs2 : FS) (r : CommandResult),
      cpLoop fs destIsDir dest l = (fs2, some r) → resultChannelsOk r := by
  intro l
  induction l with
  | nil =>
    intro fs fs2 r h
    simp only [cpLoop, Prod.mk.injEq] at h
    exact absurd h.2 (by simp)
  | cons src rest ih =>
    intro fs fs2 r h
    simp only [cpLoop] at h
    repeat' split at h
    all_goals
      first
        | exact ih _ _ _ h
        | (rw [Prod.mk.injEq, Option.some.injEq] at h
           rw [← h.2]
           exact channelsOk_err _)
        | (rw [Prod.mk.injEq] at h
           exact absurd h.2 (by simp))

theorem cpCommand_channels (fs : FS) (args : List String) :
    resultChannelsOk (cpCommand fs args).2 := by
  simp only [cpCommand]
  split
  · exact channelsOk_err _
  · split
    · exact channelsOk_err _
    · split
      · exact channelsOk_err _
      · split
        · rename_i fs2 r0 heq
          exact cpLoop_channels _ _ _ _ _ _ heq
        · exact channelsOk_out _

theorem mvCommand_channels (fs : FS) (args : List String) :
    resultChannelsOk (mvCommand fs args).2 := by
  simp only [mvCommand]
  repeat' split
  all_goals first
    | exact channelsOk_err _
    | exact channelsOk_out _

theorem wcLoop_channels (fs : FS) (cl cw cc : Bool) :
    ∀ (l : List String) (out : String) (r : CommandResult),
      wcLoop fs cl cw cc l out = .error r → resultChannelsOk r := by
  intro l
  induction l with
  | nil =>
    intro out r h
    simp only [wcLoop] at h
    exact Except.noConfusion h
  | cons f rest ih =>
    intro out r h
    simp only [wcLoop] at h
    split at h
    · exact ih _ _ h
    · split at h
      · rw [Except.error.injEq] at h
        rw [← h]
        exact channelsOk_err _
      · rw [Except.error.injEq] at h
        rw [← h]
        exact channelsOk_err _
      · exact ih _ _ h

theorem wcCommand_channels (fs : FS) (args : List String) :
    resultChannelsOk (wcCommand fs args) := by
  rcases hw : wcClassify args false false false [] with ⟨cl0, cw0, cc0, files⟩
  simp only [wcCommand, hw]
  split
  · exact channelsOk_err _
  · split
    · rename_i r0 heq
      exact wcLoop_channels _ _ _ _ _ _ _ heq
    · exact channelsOk_out _

theorem rmFlags_channels :
    ∀ (l : List String) (b : Bool) (r : CommandResult),
      rmFlags b l = .error r → resultChannelsOk r := by
  intro l
  induction l with
  | nil =>
    intro b r h
    simp only [rmFlags] at h
    exact Except.noConfusion h
  | cons a rest ih =>
    intro b r h
    simp only [rmFlags] at h
    repeat' split at h
    all_goals
      first
        | exact ih _ _ h
        | (rw [Except.error.injEq] at h
           rw [← h]
           exact channelsOk_err _)
        | exact Except.noConfusion h

theorem rmPaths_channels :
    ∀ (l : List String) (fs : FS) (fuel : Nat) (recursive : Bool) (fs2 : FS)
      (r : CommandResult),
      rmPaths fs fuel recursive l = (fs2, some r) → resultChannelsOk r := by
  intro l
  induction l with
  | nil =>
    intro fs fuel recursive fs2 r h
    simp only [rmPaths, Prod.mk.injEq] at h
    exact absurd h.2 (by simp)
  | cons path rest ih =>
    intro fs fuel recursive fs2 r h
    cases fuel with
    | zero =>
      simp only [rmPaths.eq_2] at h
      repeat' split at h
      all_goals
        first
          | exact ih _ _ _ _ _ h
          | (rw [Prod.mk.injEq, Option.some.injEq] at h
             rw [← h.2]
             exact channelsOk_err _)
    | succ fuel2 =>
      simp only [rmPaths.eq_3] at h
      repeat' split at h
      all_goals
        first
          | exact ih _ _ _ _ _ h
          | (rw [Prod.mk.injEq, Option.some.injEq] at h
             rw [← h.2]
             exact channelsOk_err _)

theorem rmRun_channels (fs : FS) (fuel : Nat) (args : List String) :
    resultChannelsOk (rmRun fs fuel args).2 := by
  rw [rmRun]
  split
  · exact channelsOk_err _
  · split
    · rename_i r0 heq
      exact rmFlags_channels _ _ _ heq
    · split
      · rename_i fs2 r0 heq2
        exact rmPaths_channels _ _ _ _ _ _ heq2
      · exact channelsOk_out _

theorem rmCommand_channels (fs : FS) (args : List String) :
    resultChannelsOk (rmCommand fs args).2 :=
  rmRun_channels fs (fs.entries.length + 1) args

theorem grepParseLen_channels :
    ∀ (N : Nat) (l : List String), l.length ≤ N →
      ∀ (n : Nat) (o : GrepOpts) (r : CommandResult),
        grepParse l n o = .error (some r) → resultChannelsOk r := by
  intro N
  induction N with
  | zero =>
    intro l hl n o r h
    cases l with
    | nil =>
      simp only [grepParse] at h
      exact Except.noConfusion h
    | cons a rest =>
      simp only [List.length_cons] at hl
      exact absurd hl (by omega)
  | succ N ih =>
    intro l hl n o r h
    rcases l with _ | ⟨a, _ | ⟨top, rest2⟩⟩
    · simp only [grepParse] at h
      exact Except.noConfusion h
    · have hl0 : ([] : List String).length ≤ N := by simp
      simp only [grepParse.eq_2] at h
      repeat' split at h
      all_goals
        first
          | exact ih _ hl0 _ _ _ h
          | (rw [Except.error.injEq, Option.some.injEq] at h
             rw [← h]
             exact channelsOk_err _)
          | (rw [Except.error.injEq] at h
             exact absurd h (by simp))
          | exact Except.noConfusion h
    · have hl2 : (top :: rest2).length ≤ N := by
        simp only [List.length_cons] at hl
        simp only [List.length_cons]
        omega
      have hl3 : rest2.length ≤ N := by
        simp only [List.length_cons] at hl
        omega
      simp only [grepParse.eq_3] at h
      repeat' split at h
      all_goals
        first
          | exact ih _ hl2 _ _ _ h
          | exact ih _ hl3 _ _ _ h
          | (rw [Except.error.injEq, Option.some.injEq] at h
             rw [← h]
             exact channelsOk_err _)
          | (rw [Except.error.injEq] at h
             exact absurd h (by simp))
          | exact Except.noConfusion h

theorem grepParse_channels (l : List String) (n : Nat) (o : GrepOpts)
    (r : CommandResult) (h : grepParse l n o = .error (some r)) :
    resultChannelsOk r :=
  grepParseLen_channels l.length l le_rfl n o r h

theorem grepLinesGo_channels (search : String → Option String) (o : GrepOpts)
    (mf : Bool) (file : String) :
    ∀ (l : List (Nat × String)) (total : Nat) (out : String) (r : CommandResult),
      grepLinesGo search o mf file l total out = .error r → resultChannelsOk r := by
  intro l
  induction l with
  | nil =>
    intro total out r h
    simp only [grepLinesGo] at h
    exact Except.noConfusion h
  | cons p rest ih =>
    intro total out r h
    rcases p with ⟨ln, line⟩
    simp only [grepLinesGo] at h
    repeat' split at h
    all_goals
      first
        | exact ih _ _ _ h
        | (rw [Except.error.injEq] at h
           rw [← h]
           exact channelsOk_out _)
        | exact Except.noConfusion h

theorem grepFileStep_channels (search : String → Option String) (o : GrepOpts)
    (mf : Bool) (fs : FS) (file : String) (total : Nat) (out : String)
    (r : CommandResult)
    (h : grepFileStep search o mf fs file total out = .error r) :
    resultChannelsOk r := by
  simp only [grepFileStep] at h
  split at h
  · rw [Except.error.injEq] at h
    rw [← h]
    exact channelsOk_err _
  · exact Except.noConfusion h
  · exact grepLinesGo_channels _ _ _ _ _ _ _ _ h

theorem grepFilesGo_channels (search : String → Option String) (o : GrepOpts)
    (mf : Bool) (fs : FS) :
    ∀ (files : List String) (total : Nat) (out : String) (r : CommandResult),
      grepFilesGo search o mf fs files total out = .error r → resultChannelsOk r := by
  intro files
  induction files with
  | nil =>
    intro total out r h
    simp only [grepFilesGo] at h
    exact Except.noConfusion h
  | cons f rest ih =>
    intro total out r h
    simp only [grepFilesGo] at h
    split at h
    · rename_i r0 heq
      rw [Except.error.injEq] at h
      rw [← h]
      exact grepFileStep_channels _ _ _ _ _ _ _ _ heq
    · exact ih _ _ _ h

theorem grepCommand_channels (eng : RegexEngine) (fs : FS) (args : List String)
    (r : CommandResult) (h : grepCommand eng fs args = some r) :
    resultChannelsOk r := by
  simp only [grepCommand] at h
  split at h
  · rw [Option.some.injEq] at h
    rw [← h]
    exact channelsOk_err _
  · split at h
    · rename_i r0 heq
      subst h
      exact grepParse_channels _ _ _ _ heq
    · rename_i o restArgs heq
      split at h
      · rw [Option.some.injEq] at h
        rw [← h]
        exact channelsOk_err _
      · rename_i pat0 files
        split at h
        · rw [Option.some.injEq] at h
          rw [← h]
          exact channelsOk_err _
        · split at h
          · rw [Option.some.injEq] at h
            rw [← h]
            exact channelsOk_err _
          · rename_i search hcomp
            split at h
            · rename_i r0 heq2
              rw [Option.some.injEq] at h
              rw [← h]
              exact grepFilesGo_channels _ _ _ _ _ _ _ _ heq2
            · rename_i total out heq2
              split at h
              · rw [Option.some.injEq] at h
                rw [← h]
                exact channelsOk_out _
              · split at h
                · rw [Option.some.injEq] at h
                  rw [← h]
                  exact channelsOk_err _
                · rw [Option.some.injEq] at h
                  rw [← h]
                  exact channelsOk_out _

/-- Claim C9: every embedded command handler obeys the output/error channel
    discipline — for every argument list (and filesystem state, regex engine
    and time formatter where the handler takes one), the returned
    `CommandResult` never populates both channels: status 0 implies the error
    field is empty, and status 1 implies the output field is empty. -/
theorem claim_C9_channels :
    (∀ args, resultChannelsOk (helpCommand args)) ∧
    (∀ args, resultChannelsOk (echoCommand args)) ∧
    (∀ args, resultChannelsOk (pauseCommand args)) ∧
    (∀ args, resultChannelsOk (clrCommand args)) ∧
    (∀ fs args, resultChannelsOk (pwdCommand fs args)) ∧
    (∀ fs args, resultChannelsOk (environCommand fs args)) ∧
    (∀ args r, quitCommand args = some r → resultChannelsOk r) ∧
    (∀ fs args, resultChannelsOk (cdCommand fs args).2) ∧
    (∀ fs args, resultChannelsOk (touchCommand fs args).2) ∧
    (∀ fs args, resultChannelsOk (catCommand fs args)) ∧
    (∀ fs args, resultChannelsOk (chownCommand fs args).2) ∧
    (∀ fs args, resultChannelsOk (chmodCommand fs args).2) ∧
    (∀ fs tf args, resultChannelsOk (lsCommand fs tf args)) ∧
    (∀ fs tf args, resultChannelsOk (dirCommand fs tf args)) ∧
    (∀ fs args, resultChannelsOk (rmdirCommand fs args).2) ∧
    (∀ fs args, resultChannelsOk (mkdirCommand fs args).2) ∧
    (∀ fs args, resultChannelsOk (cpCommand fs args).2) ∧
    (∀ fs args, resultChannelsOk (mvCommand fs args).2) ∧
    (∀ fs args, resultChannelsOk (wcCommand fs args)) ∧
    (∀ fs args, resultChannelsOk (rmCommand fs args).2) ∧
    (∀ eng fs args r, grepCommand eng fs args = some r → resultChannelsOk r) :=
  ⟨helpCommand_channels, echoCommand_channels, pauseCommand_channels,
    clrCommand_channels, pwdCommand_channels, environCommand_channels,
    quitCommand_channels, cdCommand_channels, touchCommand_channels,
    catCommand_channels, chownCommand_channels, chmodCommand_channels,
    lsCommand_channels, dirCommand_channels, rmdirCommand_channels,
    mkdirCommand_channels, cpCommand_channels, mvCommand_channels,
    wcCommand_channels, rmCommand_channels, grepCommand_channels⟩

/-- Concrete instance of claim C9: the hypotheses of its conditional
    components hold at concrete inputs — quit with an argument and grep on a
    missing file both return status-1 results with empty output. -/
theorem claim_C9_channels_witness :
    quitCommand ["x"] = some ⟨1, "", "quit: this command takes no arguments"⟩ ∧
    grepCommand litEngine { entries := [] } ["foo", "f"] =
      some ⟨1, "", "grep: cannot open file 'f'"⟩ ∧
    resultChannelsOk (⟨1, "", "quit: this command takes no arguments"⟩ : CommandResult) ∧
    resultChannelsOk (⟨1, "", "grep: cannot open file 'f'"⟩ : CommandResult) :=
  ⟨rfl, rfl,
    claim_C9_channels.2.2.2.2.2.2.1 ["x"] _ rfl,
    claim_C9_channels.2.2.2.2.2.2.2.2.2.2.2.2.2.2.2.2.2.2.2.2 litEngine
      { entries := [] } ["foo", "f"] _ rfl⟩

end ShellClone
